import Mathlib

/-!
A shallow embedding of the jwplayer api core:
  src/js/api/api.js        (Api facade: setup / remove / event wiring / addPlugin, createConfig)
  src/js/api/global-api.js (selectPlayer and the process-wide instance registry)

JavaScript values are embedded as the inductive `JsVal`; objects are association
lists with unique keys; machine floats are modelled by the exact rational type
`JNum` (the arithmetic the claims exercise is exact decimal arithmetic); `NaN`
arises only inside `_evaluateAspectRatio` and is modelled there by
`Option JNum` (`none` = NaN). Operations that can raise a JavaScript
`TypeError` return `Except JsErr`.
-/

namespace JW

/-- A JavaScript runtime error, raised by the translated code where the source
would throw (property access on `undefined`, calling a method of a non-string). -/
inductive JsErr where
  | typeError
deriving DecidableEq, Repr

/-- An exact rational number standing in for a JavaScript float. Every number
the translated code manipulates is an exact decimal, so exact rational
arithmetic coincides with the source's float arithmetic on them. All values
are kept normalized (lowest terms, positive denominator) by building them
exclusively through `JNum.mk'` and the arithmetic below, so structural
equality is value equality. NaN never inhabits this type; where the source can
produce NaN (`parseFloat`) the embedding uses `Option JNum`. -/
structure JNum where
  n : ℤ
  d : ℕ
deriving DecidableEq, Repr

/-- Normalize a numerator/denominator pair to lowest terms. -/
def JNum.mk' (n : ℤ) (d : ℕ) : JNum :=
  let g := Nat.gcd n.natAbs d
  if g = 0 then ⟨0, 0⟩ else ⟨n / (g : ℤ), d / g⟩

/-- The rational for a natural number. -/
def JNum.ofNat (n : ℕ) : JNum :=
  ⟨n, 1⟩

/-- Multiplication of rationals. -/
def JNum.mul (a b : JNum) : JNum :=
  JNum.mk' (a.n * b.n) (a.d * b.d)

/-- Division of rationals. The source never divides by zero on the paths the
claims exercise (the divisor is checked positive first). -/
def JNum.div (a b : JNum) : JNum :=
  if b.n < 0 then JNum.mk' (-(a.n * b.d)) (a.d * b.n.natAbs)
  else JNum.mk' (a.n * b.d) (a.d * b.n.natAbs)

/-- Negation of a rational. -/
def JNum.neg (a : JNum) : JNum :=
  ⟨-a.n, a.d⟩

/-- Order on rationals by cross multiplication (denominators are positive for
every value built by `mk'` from a positive denominator). -/
def JNum.le (a b : JNum) : Bool :=
  a.n * b.d ≤ b.n * a.d

/-- Ten to an integer power, as a rational. -/
def JNum.expTen (e : ℤ) : JNum :=
  if e < 0 then ⟨1, 10 ^ e.natAbs⟩ else ⟨10 ^ e.natAbs, 1⟩

/-- Embedded JavaScript values. Objects and arrays carry their entries
structurally; reference identity is not modelled (strict equality on objects is
conservatively false for syntactically distinct values, see `strictEq`). -/
inductive JsVal where
  | undef
  | null
  | bool (b : Bool)
  | num (q : JNum)
  | str (s : String)
  | list (elems : List JsVal)
  | obj (entries : List (String × JsVal))
deriving Repr

/-- A JavaScript object: an ordered association list of own properties. All
constructions in this file keep keys unique (see `setKey`). -/
abbrev JsObj := List (String × JsVal)

/-- Property lookup: the value of key `k`, or `none` when the key is absent. -/
def getKey (o : JsObj) (k : String) : Option JsVal :=
  (o.find? (fun e => e.1 = k)).map (·.2)

/-- Key removal, the embedding of the JavaScript `delete` operator. -/
def eraseKey (o : JsObj) (k : String) : JsObj :=
  o.filter (fun e => e.1 ≠ k)

/-- Property assignment `o[k] = v`. The entry order of a JavaScript object is
not observed by any lookup in this development, so assignment is embedded as
remove-then-append, which keeps keys unique. -/
def setKey (o : JsObj) (k : String) (v : JsVal) : JsObj :=
  eraseKey o k ++ [(k, v)]

/-- The embedding of underscore's `_.extend(dst, src)`: assign every own entry
of `src` onto `dst`, later entries overwriting earlier ones. -/
def extendObj (dst src : JsObj) : JsObj :=
  src.foldl (fun acc e => setKey acc e.1 e.2) dst

/-- JavaScript truthiness of an embedded value. -/
def truthy : JsVal → Bool
  | .undef => false
  | .null => false
  | .bool b => b
  | .num q => q.n ≠ 0
  | .str s => s ≠ ""
  | .list _ => true
  | .obj _ => true

/-- Digit list to natural number, most significant digit first. -/
def digitsToNat (cs : List Char) : ℕ :=
  cs.foldl (fun a c => a * 10 + (c.toNat - '0'.toNat)) 0

/-- True when every character of the list is a decimal digit. -/
def allDigits : List Char → Bool
  | [] => true
  | c :: cs => c.isDigit && allDigits cs

/-- Render a rational with a terminating decimal expansion the way JavaScript
renders the corresponding number (integer without a decimal point, otherwise
the shortest exact decimal). Rationals without a terminating expansion (which
no theorem below evaluates) fall back to a fraction rendering. -/
def numToString (q : JNum) : String :=
  let sign := if q.n < 0 then "-" else ""
  let n := q.n.natAbs
  let d := q.d
  match (List.range 40).find? (fun k => (n * 10 ^ k) % d == 0) with
  | some k =>
    if k == 0 then
      sign ++ toString (n / d)
    else
      let m := n * 10 ^ k / d
      let ip := m / 10 ^ k
      let fp := m % 10 ^ k
      let fpStr := toString fp
      let pad := String.mk (List.replicate (k - fpStr.data.length) '0')
      sign ++ toString ip ++ "." ++ pad ++ fpStr
  | none => sign ++ toString n ++ "/" ++ toString d

mutual

/-- JavaScript string conversion (`String(v)` / `v.toString()`). Arrays join
their elements with commas; plain objects render as "[object Object]". -/
def jsToString : JsVal → String
  | .undef => "undefined"
  | .null => "null"
  | .bool b => if b then "true" else "false"
  | .num q => numToString q
  | .str s => s
  | .list l => String.intercalate "," (jsToStringList l)
  | .obj _ => "[object Object]"

/-- String conversions of a list of values, the element renderings joined by
`jsToString` on an array. -/
def jsToStringList : List JsVal → List String
  | [] => []
  | v :: vs => jsToString v :: jsToStringList vs

end

/-- Parse a nonempty all-digit prefix value together with the remaining input:
helper for `parseFloat`. -/
def spanDigits (cs : List Char) : List Char × List Char :=
  (cs.takeWhile Char.isDigit, cs.dropWhile Char.isDigit)

/-- The exponent part of a JavaScript float literal: `e`/`E`, an optional sign
and at least one digit. An ill-formed exponent is ignored, as `parseFloat`
ignores trailing garbage. -/
def parseExponent (cs : List Char) : Option ℤ :=
  match cs with
  | 'e' :: rest | 'E' :: rest =>
    match rest with
    | '-' :: ds => let (d, _) := spanDigits ds
                   if d.isEmpty then none else some (-(digitsToNat d : ℤ))
    | '+' :: ds => let (d, _) := spanDigits ds
                   if d.isEmpty then none else some (digitsToNat d : ℤ)
    | ds => let (d, _) := spanDigits ds
            if d.isEmpty then none else some (digitsToNat d : ℤ)
  | _ => none

/-- Unsigned part of `parseFloat`: integer digits, an optional fraction, an
optional exponent; `none` when no digit was consumed (JavaScript `NaN`). -/
def parseFloatUnsigned (cs : List Char) : Option JNum :=
  let (ip, r1) := spanDigits cs
  let (fp, r2) :=
    match r1 with
    | '.' :: t => (t.takeWhile Char.isDigit, t.dropWhile Char.isDigit)
    | _ => ([], r1)
  if ip.isEmpty && fp.isEmpty then
    none
  else
    let mantissa := JNum.mk' (digitsToNat ip * 10 ^ fp.length + digitsToNat fp) (10 ^ fp.length)
    match parseExponent r2 with
    | some e => some (mantissa.mul (JNum.expTen e))
    | none => some mantissa

/-- The embedding of JavaScript `parseFloat`: skip leading whitespace, parse an
optionally signed decimal prefix; `none` models `NaN`. -/
def parseFloat (s : String) : Option JNum :=
  let cs := s.data.dropWhile (fun c => c == ' ' || c == '\t' || c == '\n' || c == '\r')
  match cs with
  | '-' :: rest => (parseFloatUnsigned rest).map JNum.neg
  | '+' :: rest => parseFloatUnsigned rest
  | _ => parseFloatUnsigned cs

/-- Full-string numeric conversion, the embedding of JavaScript `Number(s)` as
used by the persisted-value decoder: the whole trimmed string must be a signed
decimal literal, otherwise `none`. -/
def jsNumberFull (s : String) : Option JNum :=
  let cs := s.data.dropWhile (fun c => c == ' ' || c == '\t' || c == '\n' || c == '\r')
  let (body, sign) : List Char × Bool :=
    match cs with
    | '-' :: rest => (rest, true)
    | '+' :: rest => (rest, false)
    | _ => (cs, false)
  let (ip, r1) := spanDigits body
  let (fp, r2) :=
    match r1 with
    | '.' :: t => (t.takeWhile Char.isDigit, t.dropWhile Char.isDigit)
    | _ => ([], r1)
  if ip.isEmpty && fp.isEmpty then
    none
  else if !r2.isEmpty then
    none
  else
    let m := JNum.mk' (digitsToNat ip * 10 ^ fp.length + digitsToNat fp) (10 ^ fp.length)
    some (if sign then m.neg else m)

/-- Modelled from the spec: `utils.serialize` from `utils/helpers` (not under
src/). Persisted per-option values "are always encoded as strings and must be
deserialized to their natural type — boolean, number, or structured value —
using the same rule used when they were serialized": the strings "true" and
"false" decode to booleans, a numeric string decodes to a number, any other
value passes through unchanged. -/
def serialize : JsVal → JsVal
  | .str s =>
    if s = "true" then .bool true
    else if s = "false" then .bool false
    else match jsNumberFull s with
      | some q => .num q
      | none => .str s
  | v => v

/-- The embedding of `_deserialize` from createConfig: apply `serialize` to
every top-level value of the merged option object. -/
def deserializeObj (o : JsObj) : JsObj :=
  o.map (fun e => (e.1, serialize e.2))

/-- JavaScript strict equality (`===`) on embedded values, used by
`Array.prototype.indexOf`. Object and array operands compare by reference in
JavaScript; distinct structural values are never the same reference, so the
embedding returns false for them. -/
def strictEq : JsVal → JsVal → Bool
  | .undef, .undef => true
  | .null, .null => true
  | .bool a, .bool b => a == b
  | .num a, .num b => a == b
  | .str a, .str b => a == b
  | _, _ => false

/-- Position of the first occurrence of character `c`, the embedding of
`String.prototype.indexOf` restricted to single-character needles. -/
def firstIndexOfAux (c : Char) : List Char → ℕ → Option ℕ
  | [], _ => none
  | x :: xs, i => if x = c then some i else firstIndexOfAux c xs (i + 1)

/-- First index of character `c` in `s`, or `none` (JavaScript result -1). -/
def firstIndexOf (s : String) (c : Char) : Option ℕ :=
  firstIndexOfAux c s.data 0

/-- Position of the first occurrence of a substring, the embedding of
`String.prototype.indexOf` with a string needle. -/
def strIndexOfAux (pat : List Char) : List Char → ℕ → Option ℕ
  | [], i => if pat.isEmpty then some i else none
  | x :: xs, i => if pat.isPrefixOf (x :: xs) then some i else strIndexOfAux pat xs (i + 1)

/-- First index of substring `pat` in `s`, or `none` (JavaScript result -1). -/
def strIndexOf (s pat : String) : Option ℕ :=
  strIndexOfAux pat.data s.data 0

/-- Character-list worker for `replaceFirst`. -/
def replaceFirstAux (pat rep : List Char) : List Char → List Char
  | [] => []
  | c :: cs =>
    if pat.isPrefixOf (c :: cs) then rep ++ (c :: cs).drop pat.length
    else c :: replaceFirstAux pat rep cs

/-- Replace the first occurrence of `pat` in `s` by `rep`, the embedding of
JavaScript `String.prototype.replace` with string arguments (which replaces
only the first match). -/
def replaceFirst (s pat rep : String) : String :=
  String.mk (replaceFirstAux pat.data rep.data s.data)

/-- The localization string table of the built-in `Defaults` object in
createConfig (src/js/api/api.js, second module). -/
def defaultsLocalization : JsObj :=
  [("player", .str "Video Player"), ("play", .str "Play"),
   ("playback", .str "Start playback"), ("pause", .str "Pause"),
   ("volume", .str "Volume"), ("prev", .str "Previous"),
   ("next", .str "Next"), ("cast", .str "Chromecast"),
   ("airplay", .str "Airplay"), ("fullscreen", .str "Fullscreen"),
   ("playlist", .str "Playlist"), ("hd", .str "Quality"),
   ("cc", .str "Closed captions"), ("audioTracks", .str "Audio tracks"),
   ("playbackRates", .str "Playback rates"), ("normal", .str "Normal"),
   ("replay", .str "Replay"), ("buffer", .str "Loading"),
   ("more", .str "More"), ("liveBroadcast", .str "Live broadcast"),
   ("loadingAd", .str "Loading ad"), ("rewind", .str "Rewind 10s"),
   ("nextUp", .str "Next Up"), ("nextUpClose", .str "Next Up Close"),
   ("related", .str "Discover"), ("close", .str "Close")]

/-- The built-in `Defaults` object of createConfig. -/
def defaultsObj : JsObj :=
  [("autostart", .bool false), ("controls", .bool true),
   ("displaytitle", .bool true), ("displaydescription", .bool true),
   ("mobilecontrols", .bool false), ("defaultPlaybackRate", .num (JNum.ofNat 1)),
   ("playbackRateControls", .bool false), ("repeat", .bool false),
   ("castAvailable", .bool false), ("skin", .str "seven"),
   ("stretching", .str "uniform"), ("mute", .bool false),
   ("volume", .num (JNum.ofNat 90)), ("width", .num (JNum.ofNat 480)), ("height", .num (JNum.ofNat 270)),
   ("audioMode", .bool false), ("localization", .obj defaultsLocalization),
   ("renderCaptionsNatively", .bool true), ("nextUpDisplay", .bool true)]

/-- The page environment createConfig reads besides its arguments:
process-wide injected defaults (`window.jwplayer.defaults`), the persisted
option store (`storage.getAllItems()`), the loader-script directory
(`utils.getScriptPath`, empty string when undiscoverable), the discovered load
origin (`utils.loadFrom`) and the page protocol. The two utils functions live
in utils/helpers (outside src/) and only report the DOM environment, so they
are inputs here. -/
structure Env where
  jwDefaults : Option JsObj
  persisted : Option JsObj
  scriptPath : String
  loadFrom : String
  httpProtocol : Bool

/-- Property access `v.playlist`-style on an arbitrary value: objects look the
key up, a JavaScript array has no such named own property, primitives box to
objects without it. -/
def getProp (v : JsVal) (k : String) : Option JsVal :=
  match v with
  | .obj o => getKey o k
  | _ => none

/-- Entries a value contributes when used as an `_.extend` source: objects
contribute their entries, arrays contribute their elements under index keys,
everything else is skipped by underscore. -/
def extendSourceEntries : Option JsVal → JsObj
  | some (.obj o) => o
  | some (.list l) => (l.enum.map (fun e => (toString e.1, e.2)))
  | _ => []

/-- The merge prefix of createConfig (src/js/api/api.js lines 941-949):
`allOptions = _.extend({}, window.jwplayer.defaults, persisted, options)`,
deserialization of every merged value, the localization two-layer merge
`_.extend({}, Defaults.localization, allOptions.localization)`, and the final
`config = _.extend({}, Defaults, allOptions)`. -/
def mergedOf (options : JsObj) (env : Env) : JsObj :=
  let allOptions := extendObj (extendObj (extendObj [] (env.jwDefaults.getD [])) (env.persisted.getD [])) options
  let allOptions := deserializeObj allOptions
  let locMerged := extendObj defaultsLocalization (extendSourceEntries (getKey allOptions "localization"))
  let allOptions := setKey allOptions "localization" (.obj locMerged)
  extendObj (extendObj [] defaultsObj) allOptions

/-- Width test of `_evaluateAspectRatio`:
`width.toString().indexOf('%') === -1` negated. -/
def widthHasPercent (w : JsVal) : Bool :=
  (jsToString w).data.contains '%'

/-- Body of the bare-percentage test: the regex fragment matching
one optional digit run, an optional dot, then a mandatory digit run. -/
def percentBody (cs : List Char) : Bool :=
  match cs.dropWhile Char.isDigit with
  | [] => !cs.isEmpty
  | c :: r2 => c == '.' && (!r2.isEmpty && allDigits r2)

/-- The regex test of `_evaluateAspectRatio` for a bare percentage string:
the last character is the percent sign and the rest matches `percentBody`. -/
def matchPercent (s : String) : Bool :=
  match s.data.reverse with
  | c :: rest => c == '%' && percentBody rest.reverse
  | [] => false

/-- Comparison `x <= 0` under JavaScript semantics where `x` may be NaN
(modelled `none`): any comparison with NaN is false. -/
def leZero : Option JNum → Bool
  | some q => q.le (JNum.ofNat 0)
  | none => false

/-- The embedding of `_evaluateAspectRatio(ar, width)` from createConfig
(src/js/api/api.js lines 1042-1062). The check `utils.exists(ar)` (helpers,
outside src/) is false for the empty string; `parseFloat` failure produces NaN,
which fails both `<= 0` comparisons and renders as the string "NaN%". -/
def _evaluateAspectRatio (ar : Option JsVal) (width : JsVal) : JsVal :=
  if !widthHasPercent width then .num (JNum.ofNat 0)
  else
    match ar with
    | some (.str s) =>
      if s = "" then .num (JNum.ofNat 0)
      else if matchPercent s then .str s
      else
        match firstIndexOf s ':' with
        | none => .num (JNum.ofNat 0)
        | some i =>
          let wq := parseFloat (String.mk (s.data.take i))
          let hq := parseFloat (String.mk (s.data.drop (i + 1)))
          if leZero wq || leZero hq then .num (JNum.ofNat 0)
          else
            match wq, hq with
            | some w, some h => .str (numToString ((h.div w).mul (JNum.ofNat 100)) ++ "%")
            | _, _ => .str "NaN%"
    | _ => .num (JNum.ofNat 0)

/-- The embedding of `_normalizeSize`: strings ending in "px" lose the unit;
every other value (numbers have no `slice`, arrays fail the comparison) passes
through unchanged. -/
def _normalizeSize : JsVal → JsVal
  | .str s =>
    match s.data.reverse with
    | 'x' :: 'p' :: rest => .str (String.mk rest.reverse)
    | _ => .str s
  | v => v

/-- Force a trailing slash: `replace(/\/?$/, '/')`. -/
def forceTrailingSlash (s : String) : String :=
  match s.data.reverse with
  | '/' :: _ => s
  | _ => s ++ "/"

/-- Base-URL resolution stage of createConfig (lines 950-954): a literal "."
base becomes the loader-script directory; a falsy base falls back to the load
origin; a truthy non-string base would fail at `.replace`. -/
def stageBase (env : Env) (c : JsObj) : Except JsErr JsObj :=
  let c := match getKey c "base" with
    | some (.str s) => if s = "." then setKey c "base" (.str env.scriptPath) else c
    | _ => c
  match getKey c "base" with
  | some v =>
    if truthy v then
      match v with
      | .str s => .ok (setKey c "base" (.str (forceTrailingSlash s)))
      | _ => .error .typeError
    else .ok (setKey c "base" (.str (forceTrailingSlash env.loadFrom)))
  | none => .ok (setKey c "base" (.str (forceTrailingSlash env.loadFrom)))

/-- Width/height unit stripping stage (lines 955-956). -/
def stageSize (c : JsObj) : JsObj :=
  let c := setKey c "width" (_normalizeSize ((getKey c "width").getD .undef))
  setKey c "height" (_normalizeSize ((getKey c "height").getD .undef))

/-- Flash asset URL stage (lines 957-966): derive defaults from the script
path or base, then force the non-secure scheme on plain-HTTP pages; the scheme
rewrite calls `.replace`, which requires a string. -/
def stageFlash (env : Env) (c : JsObj) : Except JsErr JsObj :=
  let baseStr := match getKey c "base" with
    | some (.str s) => s
    | _ => ""
  let pathToFlash := if env.scriptPath ≠ "" then env.scriptPath else baseStr
  let fp := (getKey c "flashplayer").getD .undef
  let fp := if truthy fp then fp else .str (pathToFlash ++ "jwplayer.flash.swf")
  let fl := (getKey c "flashloader").getD .undef
  let fl := if truthy fl then fl else .str (pathToFlash ++ "jwplayer.loader.swf")
  if env.httpProtocol then
    match fp, fl with
    | .str s1, .str s2 =>
      .ok (setKey (setKey c "flashplayer" (.str (replaceFirst s1 "https" "http")))
            "flashloader" (.str (replaceFirst s2 "https" "http")))
    | _, _ => .error .typeError
  else
    .ok (setKey (setKey c "flashplayer" fp) "flashloader" fl)

/-- Aspect-ratio evaluation stage (line 968). -/
def stageAspect (c : JsObj) : JsObj :=
  setKey c "aspectratio" (_evaluateAspectRatio (getKey c "aspectratio") ((getKey c "width").getD .undef))

/-- Structured-skin unpacking stage (lines 970-976). Underscore's `isObject`
also accepts arrays; an array skin has none of the named properties and
reduces to the built-in default skin name. -/
def stageSkin (c : JsObj) : JsObj :=
  match (getKey c "skin").getD .undef with
  | .obj o =>
    let c := setKey c "skinUrl" ((getKey o "url").getD .undef)
    let c := setKey c "skinColorInactive" ((getKey o "inactive").getD .undef)
    let c := setKey c "skinColorActive" ((getKey o "active").getD .undef)
    let c := setKey c "skinColorBackground" ((getKey o "background").getD .undef)
    match getKey o "name" with
    | some (.str n) => setKey c "skin" (.str n)
    | _ => setKey c "skin" (.str "seven")
  | .list l =>
    let c := setKey c "skinUrl" ((getProp (.list l) "url").getD .undef)
    let c := setKey c "skinColorInactive" .undef
    let c := setKey c "skinColorActive" .undef
    let c := setKey c "skinColorBackground" .undef
    setKey c "skin" (.str "seven")
  | _ => c

/-- Legacy XML-skin stage (lines 978-981): a string skin containing ".xml" at
a strictly positive index loses the extension (first occurrence). -/
def stageSkinXml (c : JsObj) : JsObj :=
  match (getKey c "skin").getD .undef with
  | .str s =>
    match strIndexOf s ".xml" with
    | some i => if 0 < i then setKey c "skin" (.str (replaceFirst s ".xml" "")) else c
    | none => c
  | _ => c

/-- Rate filter of the playbackRateControls stage: a number within
[0.25, 4.0] inclusive. -/
def validRate (v : JsVal) : Bool :=
  match v with
  | .num q => (JNum.mk' 1 4).le q && q.le (JNum.ofNat 4)
  | _ => false

/-- The fixed default playback-rate list substituted for a boolean truthy
playbackRateControls value. -/
def defaultRates : List JsVal :=
  [.num (JNum.mk' 1 2), .num (JNum.ofNat 1), .num (JNum.mk' 5 4), .num (JNum.mk' 3 2), .num (JNum.ofNat 2)]

/-- The playbackRateControls resolution stage (lines 983-1001). -/
def stagePRC (c : JsObj) : JsObj :=
  let prc := (getKey c "playbackRateControls").getD .undef
  if truthy prc then
    let rates : Option (List JsVal) :=
      match prc with
      | .bool _ => some defaultRates
      | .list l =>
        let f := l.filter validRate
        if f.isEmpty then none else some f
      | _ => none
    match rates with
    | some rs => setKey (setKey c "playbackRates" (.list rs)) "playbackRateControls" (.list rs)
    | none => setKey c "playbackRateControls" (.bool false)
  else c

/-- The defaultPlaybackRate reset stage (lines 1003-1005):
reset to 1 unless rate controls are enabled and contain the configured
default. After `stagePRC` an enabled (truthy) value is always a list. -/
def stageDPR (c : JsObj) : JsObj :=
  let prc := (getKey c "playbackRateControls").getD .undef
  let dpr := (getKey c "defaultPlaybackRate").getD .undef
  let containsDefault :=
    match prc with
    | .list l => l.any (strictEq dpr)
    | _ => false
  if !truthy prc || !containsDefault then
    setKey c "defaultPlaybackRate" (.num (JNum.ofNat 1))
  else c

/-- The playbackRate mirror and playbackRates backfill stage (lines
1007-1008): `playbackRate` copies `defaultPlaybackRate`; a falsy
`playbackRates` is overwritten with `false` (the key stays present). -/
def stageRates (c : JsObj) : JsObj :=
  let c := setKey c "playbackRate" ((getKey c "defaultPlaybackRate").getD .undef)
  let pr := (getKey c "playbackRates").getD .undef
  setKey c "playbackRates" (if truthy pr then pr else .bool false)

/-- The aspect-ratio deletion stage (lines 1010-1012): a falsy aspectratio is
deleted from the config entirely. -/
def stageAspectDelete (c : JsObj) : JsObj :=
  if truthy ((getKey c "aspectratio").getD .undef) then c
  else eraseKey c "aspectratio"

/-- The allow-list of top-level legacy fields flattened into a synthesized
playlist item (lines 1017-1027). -/
def allowListKeys : List String :=
  ["title", "description", "type", "mediaid", "image", "file", "sources", "tracks", "preload"]

/-- The embedding of `_.pick(config, keys)`. -/
def pickKeys (o : JsObj) (ks : List String) : JsObj :=
  ks.filterMap (fun k => (getKey o k).map (fun v => (k, v)))

/-- The playlist resolution stage (lines 1014-1034): a falsy playlist is
replaced by a one-item playlist picked from the allow-listed top-level fields;
a playlist value carrying its own nested `playlist` array is treated as feed
metadata. A truthy playlist of any other shape (including a supplied empty
array, which is truthy in JavaScript) is left unchanged. -/
def stagePlaylist (c : JsObj) : JsObj :=
  let pl := (getKey c "playlist").getD .undef
  if !truthy pl then
    setKey c "playlist" (.list [.obj (pickKeys c allowListKeys)])
  else
    match getProp pl "playlist" with
    | some (.list inner) => setKey (setKey c "feedData" pl) "playlist" (.list inner)
    | _ => c

/-- The qualityLabels legacy-alias stage (line 1036):
`config.qualityLabels = config.qualityLabels || config.hlslabels`. -/
def stageQuality (c : JsObj) : JsObj :=
  let ql := (getKey c "qualityLabels").getD .undef
  setKey c "qualityLabels" (if truthy ql then ql else (getKey c "hlslabels").getD .undef)

/-- The pure middle of the derived-field pipeline, between the fallible flash
stage and the playlist stage. -/
def middleStages (c : JsObj) : JsObj :=
  stageAspectDelete (stageRates (stageDPR (stagePRC (stageSkinXml (stageSkin (stageAspect c))))))

/-- The derived-field pipeline of createConfig, applied to the merged option
object in source order. -/
def deriveConfig (env : Env) (c : JsObj) : Except JsErr JsObj := do
  let c1 ← stageBase env c
  let c2 := stageSize c1
  let c3 ← stageFlash env c2
  .ok (stageQuality (stagePlaylist (middleStages c3)))

/-- The embedding of `createConfig(options, storage)` (src/js/api/api.js lines
941-1039): merge the four option layers, deserialize, merge localization, then
compute every derived field. The `__webpack_public_path__` assignment is a
build-system side effect with no bearing on the returned object and is not
modelled. -/
def createConfig (options : JsObj) (env : Env) : Except JsErr JsObj :=
  deriveConfig env (mergedOf options env)

/-- The pipeline of createConfig up to the entry of the playlist stage: the
state `_.pick` reads when it synthesizes a playlist item. -/
def prePlaylistOf (options : JsObj) (env : Env) : Except JsErr JsObj := do
  let c1 ← stageBase env (mergedOf options env)
  let c3 ← stageFlash env (stageSize c1)
  .ok (middleStages c3)

/-- Well-formedness of an embedded object: its keys are pairwise distinct, as
they are for every JavaScript object. Objects built by `setKey`/`extendObj`
from the empty object satisfy it by construction. -/
def KeysNodup (o : JsObj) : Prop :=
  (o.map Prod.fst).Nodup

/-- Modelled from the spec: the localization merge the spec prescribes, "a
three-layer shallow merge (built-in strings < process defaults < explicit) so
omitted translations fall back correctly". Stated as a separate definition to
compare against the merge the source actually performs. -/
def specLocalizationMerge (processDefaults explicit : JsObj) : JsObj :=
  extendObj (extendObj defaultsLocalization processDefaults) explicit

/-- A concrete page environment for evaluating the pipeline: no process-wide
injected defaults, no persisted store, an https page whose loader script sits
in "/js/". -/
def env0 : Env :=
  { jwDefaults := none
    persisted := none
    scriptPath := "/js/"
    loadFrom := "/page/"
    httpProtocol := false }

/-- A listener the event bridge attached on a controller: `setupController`
subscribes a ready-capture handler (`events.JWPLAYER_READY`, the "ready"
event) and a wildcard handler (`'all'`) that re-triggers every controller
event on the facade. `gen` numbers the controller the listener is bound to
(each `setupController` call constructs a fresh Controller). -/
structure BridgeSub where
  gen : ℕ
  ev : String
deriving DecidableEq, Repr

/-- A plugin instance as `addPlugin` observes it: whether it exposes an
`addToPlayer` capability (and which callback that is), and whether it exposes
a `resize` capability together with its `resizeHandler` callback. -/
structure PluginInst where
  hasAddToPlayer : Bool
  addToPlayerId : ℕ
  hasResize : Bool
  resizeHandlerId : ℕ
deriving DecidableEq, Repr

/-- The wiring state of one Api facade. Modelled from the spec where the
backing modules are outside src/: the facade's own listener set uses
`utils/backbone.events` semantics (the spec's "subscriptions: the set of
external event listeners attached via on/once"; `off()` with no arguments
removes every one), and the controller is the spec's Event Bridge
counterparty, an event bus carrying per-type and wildcard subscriptions.
External listeners are (event name, callback id) pairs; the name "all" is the
wildcard. `curGen` is the controller currently wired; `nextGen` numbers the
next controller `setupController` would construct. -/
structure FacadeState where
  uniqueId : ℕ
  domId : String
  extListeners : List (String × ℕ)
  bridge : List BridgeSub
  curGen : ℕ
  nextGen : ℕ
  qoeTicks : List String
  plugins : List (String × PluginInst)
deriving DecidableEq, Repr

/-- The two subscriptions `setupController` attaches on a freshly constructed
controller: the ready capture and the wildcard re-emitter. -/
def setupControllerSubs (g : ℕ) : List BridgeSub :=
  [⟨g, "ready"⟩, ⟨g, "all"⟩]

/-- The Api constructor (src/js/api/api.js lines 61-94): read-only `uniqueId`
and `id`, a fresh QoE timer ticked "init", and an initial controller wired by
`setupController`. -/
def apiConstruct (uid : ℕ) (domId : String) : FacadeState :=
  { uniqueId := uid
    domId := domId
    extListeners := []
    bridge := setupControllerSubs 0
    curGen := 0
    nextGen := 1
    qoeTicks := ["init"]
    plugins := [] }

/-- The embedding of `resetPlayer(api, controller)` (lines 33-43): `api.off()`
removes every external listener; `controller.off()` removes every listener on
the current controller (in particular both bridge subscriptions); the guarded
`controller.playerDestroy()` releases engine resources and cannot throw. -/
def resetPlayer (f : FacadeState) : FacadeState :=
  { f with
    extListeners := []
    bridge := f.bridge.filter (fun b => b.gen ≠ f.curGen) }

/-- The embedding of `this.setup(options)` (lines 101-120): tick the "setup"
QoE mark, tear the previous wiring down with `resetPlayer`, then construct and
wire a fresh controller with `setupController`. The event-handler options and
the forwarded `controller.setup` call go to the excluded engine and add no
facade wiring. -/
def setupApi (f : FacadeState) : FacadeState :=
  let f0 := { f with qoeTicks := f.qoeTicks ++ ["setup"] }
  let f1 := resetPlayer f0
  { f1 with
    curGen := f1.nextGen
    nextGen := f1.nextGen + 1
    bridge := f1.bridge ++ setupControllerSubs f1.nextGen }

/-- Callback ids a facade `trigger(e, _)` delivers to: listeners registered
for `e` plus wildcard listeners, per backbone event semantics. -/
def listenersFor (f : FacadeState) (e : String) : List ℕ :=
  (f.extListeners.filter (fun p => p.1 = e ∨ p.1 = "all")).map (·.2)

/-- True when an event `e` emitted by controller generation `g` still reaches
any facade-side wiring: some bridge listener bound to controller `g` matches
it (the wildcard re-emitter, or a per-type subscription for `e`). -/
def oldEngineReaches (f : FacadeState) (g : ℕ) (e : String) : Bool :=
  f.bridge.any (fun b => b.gen = g && (b.ev = "all" || b.ev = e))

/-- Facade operations that can follow a `setup` call on the same instance. -/
inductive FOp where
  | setup
  | removeOp
  | onExt (name : String) (cb : ℕ)
  | offAll
deriving DecidableEq, Repr

/-- One facade operation: `setup` per `setupApi`; `remove` unbinds everything
via `resetPlayer` (the registry half lives in `removeApi` below); `on`
appends an external listener; `off()` clears them. -/
def applyFOp (f : FacadeState) : FOp → FacadeState
  | .setup => setupApi f
  | .removeOp => resetPlayer f
  | .onExt n cb => { f with extListeners := f.extListeners ++ [(n, cb)] }
  | .offAll => { f with extListeners := [] }

/-- Run a list of facade operations in order. -/
def applyFOps (f : FacadeState) (ops : List FOp) : FacadeState :=
  ops.foldl applyFOp f

/-- Bridge well-formedness: every bridge listener belongs to the currently
wired controller, and the fresh-controller counter is ahead of it. It holds
for `apiConstruct` and is preserved by every facade operation. -/
def BridgeWF (f : FacadeState) : Prop :=
  (∀ b ∈ f.bridge, b.gen = f.curGen) ∧ f.curGen < f.nextGen

/-- A registered player instance as the registry sees it: the read-only
`uniqueId` and `id` of an Api object. -/
structure Inst where
  uniqueId : ℕ
  id : String
deriving DecidableEq, Repr

/-- The embedding of `removePlayer` / `_removePlayer` (api.js lines 45-52,
global-api.js lines 61-68): walk the instance array from the end and splice
out the first entry whose `uniqueId` matches, then stop. -/
def removePlayer (l : List Inst) (uid : ℕ) : List Inst :=
  ((l.reverse).eraseP (fun i => i.uniqueId == uid)).reverse

/-- The embedding of `this.remove()` (api.js lines 125-136): unregister from
the instance array, emit the terminal "remove" notification to the listeners
current at that moment, then tear the wiring down with `resetPlayer`. Every
step of the source is a non-throwing operation (backbone `off`/`trigger` in
safe mode, a guarded `playerDestroy`, an array splice), so the result is
always `.ok`; the `Except` type records that the translation found no throw
site. Returns the new registry, the new facade state and the notified
callback ids. -/
def removeApi (reg : List Inst) (f : FacadeState) :
    Except JsErr (List Inst × FacadeState × List ℕ) :=
  let reg1 := removePlayer reg f.uniqueId
  let delivered := listenersFor f "remove"
  .ok (reg1, resetPlayer f, delivered)

/-- The embedding of `this.addPlugin(name, pluginInstance)` (api.js lines
640-650): record the instance in the plugin mapping, subscribe its
`addToPlayer` to "ready" (backbone `on` without a callback is a no-op), then
reach the line `this.on('resize'. pluginInstance.resizeHandler)` — written
with a period, it parses as property access `('resize').pluginInstance`,
which is `undefined`, and reading `.resizeHandler` from `undefined` throws a
TypeError whenever the `pluginInstance.resize` guard is truthy. -/
def addPlugin (f : FacadeState) (name : String) (p : PluginInst) :
    Except JsErr FacadeState :=
  let f := { f with plugins := (f.plugins.filter (fun e => e.1 ≠ name)) ++ [(name, p)] }
  let f := if p.hasAddToPlayer then
      { f with extListeners := f.extListeners ++ [("ready", p.addToPlayerId)] }
    else f
  if p.hasResize then .error .typeError
  else .ok f

/-- Queries `selectPlayer` accepts: absent (or any other falsy value of a
non-string, non-number type, such as null, false or NaN, which the `!query`
guard treats identically), a string, a number, a DOM element (carrying its
element id), or any other truthy value. -/
inductive JwQuery where
  | noQuery
  | str (s : String)
  | num (n : ℕ)
  | node (domId : String)
  | other
deriving DecidableEq, Repr

/-- The truthiness test `!query` (global-api.js line 17) on a query: an
absent query is falsy, as are the empty string and the number zero; a DOM
element is a truthy object, and `other` stands for a truthy query of some
other type (falsy ones are represented by `noQuery`). -/
def queryFalsy : JwQuery → Bool
  | .noQuery => true
  | .str s => s = ""
  | .num n => n = 0
  | .node _ => false
  | .other => false

/-- The result of `selectPlayer`: an existing registered player, a freshly
created one, or the degraded object exposing only `registerPlugin`. -/
inductive SelectResult where
  | player (i : Inst)
  | created (i : Inst)
  | degraded
deriving DecidableEq, Repr

/-- Process-wide registry state: the instance array (module api/players, an
ordered list), the Api constructor's `instancesCreated` counter and
global-api's `_uniqueIndex` counter. -/
structure GlobalState where
  instances : List Inst
  instancesCreated : ℕ
  uniqueIndex : ℕ
deriving DecidableEq, Repr

/-- The embedding of `_playerById` (global-api.js lines 44-52): the first
registered instance whose public `id` equals the query. -/
def _playerById (l : List Inst) (id : String) : Option Inst :=
  l.find? (fun i => i.id = id)

/-- Construction plus `_addPlayer` (global-api.js lines 54-59): the Api
constructor captures `uniqueId := instancesCreated++` behind a getter-only
property; `_addPlayer` increments `_uniqueIndex` and then assigns
`api.uniqueId = _uniqueIndex`, but that property has no setter, so the
assignment does not change the id (and the new instance keeps the
constructor's value); finally the instance is pushed onto the array. -/
def addNewPlayer (g : GlobalState) (domId : String) : Inst × GlobalState :=
  let inst : Inst := ⟨g.instancesCreated, domId⟩
  (inst,
   { instances := g.instances ++ [inst]
     instancesCreated := g.instancesCreated + 1
     uniqueIndex := g.uniqueIndex + 1 })

/-- The embedding of `selectPlayer(query)` (global-api.js lines 12-42), with
`dom` the set of element ids `document.getElementById` can resolve. A falsy
query (the `if (!query)` guard: absent, null, the empty string, zero)
resolves to the first registered instance; a string query prefers an existing
player over creating one against a same-id element; a numeric query indexes
the registry; a DOM-element query prefers the player registered under the
element's id and otherwise creates one against it; anything else yields the
degraded plugin-registration object. The `noQuery` arm inside the non-falsy
branch is unreachable (an absent query is falsy). -/
def selectPlayer (g : GlobalState) (dom : List String) (q : JwQuery) :
    SelectResult × GlobalState :=
  if queryFalsy q then
    match g.instances with
    | p :: _ => (.player p, g)
    | [] => (.degraded, g)
  else
    match q with
    | .noQuery => (.degraded, g)
    | .str s =>
      match _playerById g.instances s with
      | some p => (.player p, g)
      | none =>
        if s ∈ dom then
          let (inst, g1) := addNewPlayer g s
          (.created inst, g1)
        else (.degraded, g)
    | .num n =>
      match g.instances.get? n with
      | some p => (.player p, g)
      | none => (.degraded, g)
    | .node d =>
      match _playerById g.instances d with
      | some p => (.player p, g)
      | none =>
        let (inst, g1) := addNewPlayer g d
        (.created inst, g1)
    | .other => (.degraded, g)

/-- Registry-level operations: a `selectPlayer` call (the only way a player is
created and registered) and the registry half of a `remove()` call. -/
inductive GOp where
  | select (dom : List String) (q : JwQuery)
  | removeOp (uid : ℕ)
deriving DecidableEq, Repr

/-- Apply one registry-level operation. -/
def applyGOp (g : GlobalState) : GOp → GlobalState
  | .select dom q => (selectPlayer g dom q).2
  | .removeOp uid => { g with instances := removePlayer g.instances uid }

/-- The initial process state: empty instance array, both counters zero. -/
def initialGlobal : GlobalState :=
  ⟨[], 0, 0⟩

/-- Run registry-level operations from the initial process state. -/
def runGOps (ops : List GOp) : GlobalState :=
  ops.foldl applyGOp initialGlobal

/-- The registry invariant: registered unique ids are strictly increasing in
registration order (hence pairwise distinct, and the order is creation order),
and every one is below the construction counter, so a freshly constructed
instance can never collide with a live or past id. -/
def RegistryInv (g : GlobalState) : Prop :=
  (g.instances.map Inst.uniqueId).Pairwise (· < ·) ∧
  ∀ i ∈ g.instances, i.uniqueId < g.instancesCreated

theorem getKey_nil (k : String) : getKey [] k = none := rfl

theorem getKey_cons (a : String) (b : JsVal) (t : JsObj) (k : String) :
    getKey ((a, b) :: t) k = if a = k then some b else getKey t k := by
  by_cases h : a = k <;> simp [getKey, List.find?_cons, h]

theorem getKey_eraseKey (o : JsObj) (k k' : String) :
    getKey (eraseKey o k) k' = if k' = k then none else getKey o k' := by
  induction o with
  | nil => simp [eraseKey, getKey_nil]
  | cons e t ih =>
    obtain ⟨a, b⟩ := e
    by_cases hak : a = k
    · subst hak
      simp only [eraseKey, List.filter_cons] at *
      by_cases hkk' : k' = a
      · simp_all [getKey_cons, eraseKey]
      · simp_all [getKey_cons, eraseKey, if_neg (Ne.symm hkk')]
    · simp only [eraseKey, List.filter_cons] at *
      by_cases hak' : a = k' <;> by_cases hkk : k' = k <;>
        simp_all [getKey_cons, eraseKey]

theorem getKey_append (o₁ o₂ : JsObj) (k : String) :
    getKey (o₁ ++ o₂) k = (getKey o₁ k).orElse (fun _ => getKey o₂ k) := by
  induction o₁ with
  | nil => simp [getKey_nil, Option.orElse]
  | cons e t ih =>
    obtain ⟨a, b⟩ := e
    by_cases hak : a = k <;> simp_all [getKey_cons, Option.orElse]

theorem getKey_setKey (o : JsObj) (k : String) (v : JsVal) (k' : String) :
    getKey (setKey o k v) k' = if k' = k then some v else getKey o k' := by
  rw [setKey, getKey_append, getKey_eraseKey]
  by_cases h : k' = k
  · simp [h, getKey_cons, Option.orElse]
  · cases hk : getKey o k' <;> simp [h, Ne.symm h, hk, getKey_cons, getKey_nil, Option.orElse]

theorem getKey_setKey_self (o : JsObj) (k : String) (v : JsVal) :
    getKey (setKey o k v) k = some v := by
  simp [getKey_setKey]

theorem getKey_setKey_ne (o : JsObj) (k : String) (v : JsVal) (k' : String) (h : k' ≠ k) :
    getKey (setKey o k v) k' = getKey o k' := by
  simp [getKey_setKey, h]

theorem getKey_none_of_not_mem (o : JsObj) (k : String) (h : k ∉ o.map Prod.fst) :
    getKey o k = none := by
  induction o with
  | nil => rfl
  | cons e t ih =>
    obtain ⟨a, b⟩ := e
    simp only [List.map_cons, List.mem_cons] at h
    push_neg at h
    rw [getKey_cons, if_neg (Ne.symm h.1), ih h.2]

theorem getKey_extendObj (dst src : JsObj) (h : KeysNodup src) (k : String) :
    getKey (extendObj dst src) k = (getKey src k).orElse (fun _ => getKey dst k) := by
  induction src generalizing dst with
  | nil => simp [extendObj, getKey_nil, Option.orElse]
  | cons e t ih =>
    obtain ⟨a, b⟩ := e
    have hnd : KeysNodup t := by
      simpa [KeysNodup, List.nodup_cons] using (List.nodup_cons.mp h).2
    have hna : a ∉ t.map Prod.fst := by
      simpa using (List.nodup_cons.mp h).1
    show getKey (extendObj (setKey dst a b) t) k = _
    rw [ih _ hnd]
    by_cases hak : a = k
    · subst hak
      rw [getKey_none_of_not_mem t a hna]
      simp [getKey_cons, getKey_setKey_self, Option.orElse]
    · rw [getKey_setKey_ne _ _ _ _ (Ne.symm hak)]
      cases hk : getKey t k <;> simp [getKey_cons, hak, hk, Option.orElse]

theorem keys_eraseKey (o : JsObj) (k : String) :
    (eraseKey o k).map Prod.fst = (o.map Prod.fst).filter (fun a => a ≠ k) := by
  induction o with
  | nil => rfl
  | cons e t ih =>
    obtain ⟨a, b⟩ := e
    by_cases hak : a = k <;> simp [eraseKey, List.filter_cons, hak, ih] <;>
      simpa [eraseKey] using ih

theorem keysNodup_setKey (o : JsObj) (k : String) (v : JsVal) (h : KeysNodup o) :
    KeysNodup (setKey o k v) := by
  unfold KeysNodup at *
  rw [setKey, List.map_append, keys_eraseKey]
  refine List.Nodup.append (h.filter _) (List.nodup_singleton k) ?_
  intro a ha hb
  simp only [List.mem_filter, decide_eq_true_eq] at ha
  simp only [List.map_cons, List.map_nil, List.mem_singleton] at hb
  exact absurd hb ha.2

theorem keysNodup_extendObj (dst src : JsObj) (h : KeysNodup dst) :
    KeysNodup (extendObj dst src) := by
  induction src generalizing dst with
  | nil => exact h
  | cons e t ih => exact ih _ (keysNodup_setKey _ _ _ h)

theorem getKey_deserializeObj (o : JsObj) (k : String) :
    getKey (deserializeObj o) k = (getKey o k).map serialize := by
  induction o with
  | nil => rfl
  | cons e t ih =>
    obtain ⟨a, b⟩ := e
    by_cases hak : a = k <;> simp [deserializeObj, getKey_cons, hak] <;>
      simpa [deserializeObj] using ih

theorem keys_deserializeObj (o : JsObj) :
    (deserializeObj o).map Prod.fst = o.map Prod.fst := by
  induction o with
  | nil => rfl
  | cons e t ih => simpa [deserializeObj] using ih

theorem stageBase_getKey (env : Env) (c c' : JsObj) (k : String)
    (h : stageBase env c = .ok c') (hk : k ≠ "base") :
    getKey c' k = getKey c k := by
  unfold stageBase at h
  repeat' split at h
  all_goals
    first
    | (cases h <;> simp [getKey_setKey, hk])
    | (simp only [getKey_setKey_self, truthy] at h
       repeat' split at h
       all_goals cases h <;> simp [getKey_setKey, hk])

theorem stageSize_getKey (c : JsObj) (k : String)
    (h1 : k ≠ "width") (h2 : k ≠ "height") :
    getKey (stageSize c) k = getKey c k := by
  unfold stageSize
  simp [getKey_setKey, h1, h2]

theorem stageFlash_getKey (env : Env) (c c' : JsObj) (k : String)
    (h : stageFlash env c = .ok c') (h1 : k ≠ "flashplayer") (h2 : k ≠ "flashloader") :
    getKey c' k = getKey c k := by
  unfold stageFlash at h
  simp only [] at h
  repeat' split at h
  all_goals cases h <;> simp [getKey_setKey, h1, h2]

theorem stageAspect_getKey (c : JsObj) (k : String) (h : k ≠ "aspectratio") :
    getKey (stageAspect c) k = getKey c k := by
  unfold stageAspect
  simp [getKey_setKey, h]

theorem stageSkin_getKey (c : JsObj) (k : String)
    (h1 : k ≠ "skin") (h2 : k ≠ "skinUrl") (h3 : k ≠ "skinColorInactive")
    (h4 : k ≠ "skinColorActive") (h5 : k ≠ "skinColorBackground") :
    getKey (stageSkin c) k = getKey c k := by
  unfold stageSkin
  repeat' split
  all_goals simp [getKey_setKey, h1, h2, h3, h4, h5]

theorem stageSkinXml_getKey (c : JsObj) (k : String) (h : k ≠ "skin") :
    getKey (stageSkinXml c) k = getKey c k := by
  unfold stageSkinXml
  repeat' split
  all_goals simp [getKey_setKey, h]

theorem stagePRC_getKey (c : JsObj) (k : String)
    (h1 : k ≠ "playbackRateControls") (h2 : k ≠ "playbackRates") :
    getKey (stagePRC c) k = getKey c k := by
  unfold stagePRC
  simp only []
  repeat' split
  all_goals simp [getKey_setKey, h1, h2]

theorem stageDPR_getKey (c : JsObj) (k : String) (h : k ≠ "defaultPlaybackRate") :
    getKey (stageDPR c) k = getKey c k := by
  unfold stageDPR
  simp only []
  repeat' split
  all_goals simp [getKey_setKey, h]

theorem stageRates_getKey (c : JsObj) (k : String)
    (h1 : k ≠ "playbackRate") (h2 : k ≠ "playbackRates") :
    getKey (stageRates c) k = getKey c k := by
  unfold stageRates
  simp [getKey_setKey, h1, h2]

theorem stageAspectDelete_getKey (c : JsObj) (k : String) (h : k ≠ "aspectratio") :
    getKey (stageAspectDelete c) k = getKey c k := by
  unfold stageAspectDelete
  split
  · rfl
  · rw [getKey_eraseKey, if_neg h]

theorem stagePlaylist_getKey (c : JsObj) (k : String)
    (h1 : k ≠ "playlist") (h2 : k ≠ "feedData") :
    getKey (stagePlaylist c) k = getKey c k := by
  unfold stagePlaylist
  simp only []
  repeat' split
  all_goals simp [getKey_setKey, h1, h2]

theorem stageQuality_getKey (c : JsObj) (k : String) (h : k ≠ "qualityLabels") :
    getKey (stageQuality c) k = getKey c k := by
  unfold stageQuality
  simp [getKey_setKey, h]

theorem allDigits_not_colon (cs : List Char) (h : allDigits cs = true) : ':' ∉ cs := by
  induction cs with
  | nil => simp
  | cons c t ih =>
    simp only [allDigits, Bool.and_eq_true] at h
    intro hm
    rcases List.mem_cons.mp hm with hc | hc
    · subst hc
      exact absurd h.1 (by decide)
    · exact ih h.2 hc

theorem takeWhile_isDigit_not_colon (cs : List Char) : ':' ∉ cs.takeWhile Char.isDigit := by
  intro hm
  have := List.mem_takeWhile_imp hm
  exact absurd this (by decide)

theorem percentBody_not_colon (cs : List Char) (h : percentBody cs = true) : ':' ∉ cs := by
  unfold percentBody at h
  intro hm
  rw [← List.takeWhile_append_dropWhile (p := Char.isDigit) (l := cs)] at hm
  rcases List.mem_append.mp hm with hm1 | hm2
  · exact takeWhile_isDigit_not_colon cs hm1
  · revert h
    cases hd : cs.dropWhile Char.isDigit with
    | nil => simp_all
    | cons c r2 =>
      rw [hd] at hm2
      intro h
      simp only [Bool.and_eq_true, beq_iff_eq] at h
      rcases List.mem_cons.mp hm2 with hc | hc
      · rw [h.1] at hc
        exact absurd hc (by decide)
      · exact allDigits_not_colon r2 h.2.2 hc

theorem matchPercent_not_colon (s : String) (h : matchPercent s = true) : ':' ∉ s.data := by
  unfold matchPercent at h
  intro hm
  have hmr : ':' ∈ s.data.reverse := List.mem_reverse.mpr hm
  revert h
  cases hr : s.data.reverse with
  | nil => simp
  | cons c rest =>
    intro h
    simp only [Bool.and_eq_true, beq_iff_eq] at h
    rw [hr] at hmr
    rcases List.mem_cons.mp hmr with hc | hc
    · rw [h.1] at hc
      exact absurd hc (by decide)
    · exact percentBody_not_colon rest.reverse h.2 (List.mem_reverse.mpr hc)

theorem firstIndexOfAux_mem (c : Char) (l : List Char) (i j : ℕ)
    (h : firstIndexOfAux c l i = some j) : c ∈ l := by
  induction l generalizing i with
  | nil => exact absurd h (by simp [firstIndexOfAux])
  | cons x xs ih =>
    unfold firstIndexOfAux at h
    split at h
    · simp_all
    · exact List.mem_cons_of_mem _ (ih _ h)

theorem firstIndexOf_mem (s : String) (c : Char) (i : ℕ)
    (h : firstIndexOf s c = some i) : c ∈ s.data :=
  firstIndexOfAux_mem c s.data 0 i h

theorem matchPercent_false_of_colon (s : String) (i : ℕ)
    (h : firstIndexOf s ':' = some i) : matchPercent s = false := by
  by_contra hc
  have := matchPercent_not_colon s (by revert hc; cases matchPercent s <;> simp)
  exact this (firstIndexOf_mem s ':' i h)

theorem firstIndexOf_ne_empty (i : ℕ) (h : firstIndexOf "" ':' = some i) : False := by
  simp [firstIndexOf, firstIndexOfAux] at h

theorem middleStages_getKey (c : JsObj) (k : String)
    (ha : k ≠ "aspectratio") (hs1 : k ≠ "skin") (hs2 : k ≠ "skinUrl")
    (hs3 : k ≠ "skinColorInactive") (hs4 : k ≠ "skinColorActive")
    (hs5 : k ≠ "skinColorBackground") (hp1 : k ≠ "playbackRateControls")
    (hp2 : k ≠ "playbackRates") (hd : k ≠ "defaultPlaybackRate")
    (hr : k ≠ "playbackRate") :
    getKey (middleStages c) k = getKey c k := by
  unfold middleStages
  rw [stageAspectDelete_getKey _ _ ha, stageRates_getKey _ _ hr hp2,
    stageDPR_getKey _ _ hd, stagePRC_getKey _ _ hp1 hp2,
    stageSkinXml_getKey _ _ hs1, stageSkin_getKey _ _ hs1 hs2 hs3 hs4 hs5,
    stageAspect_getKey _ _ ha]

theorem stageSize_width (c : JsObj) :
    getKey (stageSize c) "width" = some (_normalizeSize ((getKey c "width").getD .undef)) := by
  unfold stageSize
  rw [getKey_setKey_ne _ _ _ _ (by decide), getKey_setKey_self]

theorem stageAspect_self (c : JsObj) :
    getKey (stageAspect c) "aspectratio" =
      some (_evaluateAspectRatio (getKey c "aspectratio") ((getKey c "width").getD .undef)) := by
  unfold stageAspect
  exact getKey_setKey_self _ _ _

theorem stageAspectDelete_self (c : JsObj) :
    getKey (stageAspectDelete c) "aspectratio" =
      (if truthy ((getKey c "aspectratio").getD .undef) then getKey c "aspectratio" else none) := by
  unfold stageAspectDelete
  split
  · rfl
  · rw [getKey_eraseKey, if_pos rfl]

theorem middleStages_aspect (c : JsObj) :
    getKey (middleStages c) "aspectratio" =
      (let v := _evaluateAspectRatio (getKey c "aspectratio") ((getKey c "width").getD .undef)
       if truthy v then some v else none) := by
  unfold middleStages
  rw [stageAspectDelete_self,
    stageRates_getKey _ _ (by decide) (by decide),
    stageDPR_getKey _ _ (by decide),
    stagePRC_getKey _ _ (by decide) (by decide),
    stageSkinXml_getKey _ _ (by decide),
    stageSkin_getKey _ _ (by decide) (by decide) (by decide) (by decide) (by decide),
    stageAspect_self]
  rfl

/-- The aspect-ratio field of a successful createConfig run, characterized in
terms of the merged configuration: the evaluation reads the merged
`aspectratio` and the unit-stripped merged `width`, and the field is present
in the final config exactly when the evaluation result is truthy. -/
theorem createConfig_aspect_char (options : JsObj) (env : Env) (cfg : JsObj)
    (h : createConfig options env = .ok cfg) :
    getKey cfg "aspectratio" =
      (let v := _evaluateAspectRatio (getKey (mergedOf options env) "aspectratio")
        (_normalizeSize ((getKey (mergedOf options env) "width").getD .undef))
       if truthy v then some v else none) := by
  unfold createConfig deriveConfig at h
  cases h1 : stageBase env (mergedOf options env) with
  | error e =>
    rw [h1] at h
    simp only [bind, Except.bind] at h
    exact absurd h (by simp)
  | ok c1 =>
    rw [h1] at h
    simp only [bind, Except.bind] at h
    cases h3 : stageFlash env (stageSize c1) with
    | error e =>
      rw [h3] at h
      exact absurd h (by simp)
    | ok c3 =>
      rw [h3] at h
      simp only [Except.ok.injEq] at h
      subst h
      rw [stageQuality_getKey _ _ (by decide),
        stagePlaylist_getKey _ _ (by decide) (by decide),
        middleStages_aspect]
      have har : getKey c3 "aspectratio" = getKey (mergedOf options env) "aspectratio" := by
        rw [stageFlash_getKey env _ _ _ h3 (by decide) (by decide),
          stageSize_getKey _ _ (by decide) (by decide),
          stageBase_getKey env _ _ _ h1 (by decide)]
      have hw : getKey c3 "width" =
          some (_normalizeSize ((getKey (mergedOf options env) "width").getD .undef)) := by
        rw [stageFlash_getKey env _ _ _ h3 (by decide) (by decide), stageSize_width,
          stageBase_getKey env _ _ _ h1 (by decide)]
      rw [har, hw]
      rfl

/-- C3 (amended). For every merged config, `_evaluateAspectRatio` returns 0
whenever width is not a percentage string (its string form has no percent
sign); when width is a percentage string: an aspectratio "W:H" whose parts
parse as positive numbers yields the string (H/W*100)+"%", a bare percentage
string passes through unchanged, a missing, non-string, empty or colon-free
value yields 0, and a W:H form with a zero-or-negative parsed component yields
0 — but a W:H form whose component does not parse as a number yields the
string "NaN%" (NaN propagated into the concatenation), not 0, unlike the
original claim. Whenever the evaluation yields 0, the aspectratio field is
absent from the final config object, and whenever it is truthy it is kept. -/
theorem c3_aspectratio_amended :
    (∀ (ar : Option JsVal) (w : JsVal), widthHasPercent w = false →
      _evaluateAspectRatio ar w = .num (JNum.ofNat 0)) ∧
    (∀ (s : String) (w : JsVal), widthHasPercent w = true → matchPercent s = true →
      _evaluateAspectRatio (some (.str s)) w = .str s) ∧
    (∀ (s : String) (w : JsVal) (i : ℕ) (wq hq : JNum),
      widthHasPercent w = true →
      firstIndexOf s ':' = some i →
      parseFloat (String.mk (s.data.take i)) = some wq →
      parseFloat (String.mk (s.data.drop (i + 1))) = some hq →
      leZero (some wq) = false → leZero (some hq) = false →
      _evaluateAspectRatio (some (.str s)) w =
        .str (numToString ((hq.div wq).mul (JNum.ofNat 100)) ++ "%")) ∧
    (∀ (s : String) (w : JsVal) (i : ℕ),
      widthHasPercent w = true →
      firstIndexOf s ':' = some i →
      (leZero (parseFloat (String.mk (s.data.take i))) = true ∨
       leZero (parseFloat (String.mk (s.data.drop (i + 1)))) = true) →
      _evaluateAspectRatio (some (.str s)) w = .num (JNum.ofNat 0)) ∧
    (∀ (s : String) (w : JsVal) (i : ℕ),
      widthHasPercent w = true →
      firstIndexOf s ':' = some i →
      leZero (parseFloat (String.mk (s.data.take i))) = false →
      leZero (parseFloat (String.mk (s.data.drop (i + 1)))) = false →
      (parseFloat (String.mk (s.data.take i)) = none ∨
       parseFloat (String.mk (s.data.drop (i + 1))) = none) →
      _evaluateAspectRatio (some (.str s)) w = .str "NaN%") ∧
    (∀ (w : JsVal), _evaluateAspectRatio none w = .num (JNum.ofNat 0)) ∧
    (∀ (v w : JsVal), (∀ s, v ≠ .str s) →
      _evaluateAspectRatio (some v) w = .num (JNum.ofNat 0)) ∧
    (∀ (s : String) (w : JsVal), firstIndexOf s ':' = none → matchPercent s = false →
      _evaluateAspectRatio (some (.str s)) w = .num (JNum.ofNat 0)) ∧
    (∀ (options : JsObj) (env : Env) (cfg : JsObj),
      createConfig options env = .ok cfg →
      getKey cfg "aspectratio" =
        (let v := _evaluateAspectRatio (getKey (mergedOf options env) "aspectratio")
          (_normalizeSize ((getKey (mergedOf options env) "width").getD .undef))
         if truthy v then some v else none)) := by
  refine ⟨?_, ?_, ?_, ?_, ?_, ?_, ?_, ?_, ?_⟩
  · intro ar w h
    unfold _evaluateAspectRatio
    simp [h]
  · intro s w h1 h2
    have hne : s ≠ "" := by
      intro he
      subst he
      exact absurd h2 (by decide)
    unfold _evaluateAspectRatio
    simp [h1, h2, hne]
  · intro s w i wq hq h1 hidx hw hh hlw hlh
    have hne : s ≠ "" := by
      intro he
      subst he
      exact firstIndexOf_ne_empty i hidx
    have hmp := matchPercent_false_of_colon s i hidx
    unfold _evaluateAspectRatio
    simp [h1, hmp, hne, hidx, hw, hh, hlw, hlh]
  · intro s w i h1 hidx hz
    have hne : s ≠ "" := by
      intro he
      subst he
      exact firstIndexOf_ne_empty i hidx
    have hmp := matchPercent_false_of_colon s i hidx
    unfold _evaluateAspectRatio
    rcases hz with hz | hz <;> simp [h1, hmp, hne, hidx, hz]
  · intro s w i h1 hidx hlw hlh hnan
    have hne : s ≠ "" := by
      intro he
      subst he
      exact firstIndexOf_ne_empty i hidx
    have hmp := matchPercent_false_of_colon s i hidx
    unfold _evaluateAspectRatio
    rcases hnan with hn | hn
    · rw [hn] at hlw
      simp [h1, hmp, hne, hidx, hn, hlw, hlh]
    · rw [hn] at hlh
      cases hwv : parseFloat (String.mk (s.data.take i)) with
      | none => simp [h1, hmp, hne, hidx, hn, hwv, hlh]
      | some v =>
        rw [hwv] at hlw
        simp [h1, hmp, hne, hidx, hn, hwv, hlw, hlh]
  · intro w
    unfold _evaluateAspectRatio
    split <;> rfl
  · intro v w hv
    unfold _evaluateAspectRatio
    split
    · rfl
    · cases v <;> first
      | rfl
      | exact absurd rfl (hv _)
  · intro s w hidx hmp
    unfold _evaluateAspectRatio
    split
    · rfl
    · simp [hmp, hidx]
  · exact createConfig_aspect_char

/-- C3 counterexample: the claim says any aspectratio form other than a
positive "W:H" or a bare percentage yields 0 (and hence the field is dropped);
but with a percentage width, the form "a:b" — whose parts do not parse as
numbers — evaluates to the string "NaN%", which is truthy and is therefore
kept in the final config rather than omitted. -/
theorem c3_aspectratio_counterexample :
    _evaluateAspectRatio (some (.str "a:b")) (.str "50%") = .str "NaN%" ∧
    (createConfig [("width", .str "50%"), ("aspectratio", .str "a:b")] env0).map
      (fun c => getKey c "aspectratio") = .ok (some (.str "NaN%")) ∧
    JsVal.str "NaN%" ≠ JsVal.num (JNum.ofNat 0) := by
  refine ⟨rfl, rfl, ?_⟩
  intro h
  exact JsVal.noConfusion h

/-- C3 witness: the amended theorem evaluated at width "50%" and aspectratio
"16:9" produces exactly "56.25%". -/
theorem c3_aspectratio_witness :
    widthHasPercent (.str "50%") = true ∧
    firstIndexOf "16:9" ':' = some 2 ∧
    parseFloat (String.mk ("16:9".data.take 2)) = some (JNum.ofNat 16) ∧
    parseFloat (String.mk ("16:9".data.drop 3)) = some (JNum.ofNat 9) ∧
    _evaluateAspectRatio (some (.str "16:9")) (.str "50%") = .str "56.25%" := by
  refine ⟨rfl, rfl, rfl, rfl, ?_⟩
  have h := c3_aspectratio_amended.2.2.1 "16:9" (.str "50%") 2
    (JNum.ofNat 16) (JNum.ofNat 9) rfl rfl rfl rfl rfl rfl
  rw [h]
  rfl

theorem stagePlaylist_falsy (c : JsObj)
    (h : truthy ((getKey c "playlist").getD .undef) = false) :
    getKey (stagePlaylist c) "playlist" = some (.list [.obj (pickKeys c allowListKeys)]) := by
  unfold stagePlaylist
  simp only [h]
  exact getKey_setKey_self _ _ _

theorem prePlaylist_createConfig (options : JsObj) (env : Env) (c9 : JsObj)
    (h : prePlaylistOf options env = .ok c9) :
    createConfig options env = .ok (stageQuality (stagePlaylist c9)) := by
  unfold prePlaylistOf at h
  unfold createConfig deriveConfig
  cases h1 : stageBase env (mergedOf options env) with
  | error e =>
    rw [h1] at h
    simp only [bind, Except.bind] at h
    exact absurd h (by simp)
  | ok c1 =>
    rw [h1] at h
    simp only [bind, Except.bind] at h ⊢
    cases h3 : stageFlash env (stageSize c1) with
    | error e =>
      rw [h3] at h
      exact absurd h (by simp)
    | ok c3 =>
      rw [h3] at h
      simp only [Except.ok.injEq] at h
      subst h
      rfl

theorem prePlaylist_getKey (options : JsObj) (env : Env) (c9 : JsObj) (k : String)
    (h : prePlaylistOf options env = .ok c9)
    (hb : k ≠ "base") (hw : k ≠ "width") (hh : k ≠ "height")
    (hf1 : k ≠ "flashplayer") (hf2 : k ≠ "flashloader")
    (ha : k ≠ "aspectratio") (hs1 : k ≠ "skin") (hs2 : k ≠ "skinUrl")
    (hs3 : k ≠ "skinColorInactive") (hs4 : k ≠ "skinColorActive")
    (hs5 : k ≠ "skinColorBackground") (hp1 : k ≠ "playbackRateControls")
    (hp2 : k ≠ "playbackRates") (hd : k ≠ "defaultPlaybackRate")
    (hr : k ≠ "playbackRate") :
    getKey c9 k = getKey (mergedOf options env) k := by
  unfold prePlaylistOf at h
  cases h1 : stageBase env (mergedOf options env) with
  | error e =>
    rw [h1] at h
    simp only [bind, Except.bind] at h
    exact absurd h (by simp)
  | ok c1 =>
    rw [h1] at h
    simp only [bind, Except.bind] at h
    cases h3 : stageFlash env (stageSize c1) with
    | error e =>
      rw [h3] at h
      exact absurd h (by simp)
    | ok c3 =>
      rw [h3] at h
      simp only [Except.ok.injEq] at h
      subst h
      rw [middleStages_getKey _ _ ha hs1 hs2 hs3 hs4 hs5 hp1 hp2 hd hr,
        stageFlash_getKey env _ _ _ h3 hf1 hf2,
        stageSize_getKey _ _ hw hh,
        stageBase_getKey env _ _ _ h1 hb]

/-- C2 (amended). Whenever the merged config's playlist field is absent or
falsy, the configuration object returned by createConfig has a playlist of
length exactly 1, synthesized by picking the allow-listed top-level fields
(title, description, type, mediaid, image, file, sources, tracks, preload)
from the derived config; never an empty list and never undefined. In
particular an empty options object yields a playlist of length 1. (A supplied
playlist that is a truthy value — including an empty array, which is truthy —
is not replaced; the original claim fails there.) -/
theorem c2_playlist_amended :
    ∀ (options : JsObj) (env : Env) (c9 : JsObj),
      prePlaylistOf options env = .ok c9 →
      truthy ((getKey (mergedOf options env) "playlist").getD .undef) = false →
      createConfig options env = .ok (stageQuality (stagePlaylist c9)) ∧
      getKey c9 "playlist" = getKey (mergedOf options env) "playlist" ∧
      getKey (stageQuality (stagePlaylist c9)) "playlist" =
        some (.list [.obj (pickKeys c9 allowListKeys)]) := by
  intro options env c9 h hf
  have hlink : getKey c9 "playlist" = getKey (mergedOf options env) "playlist" :=
    prePlaylist_getKey options env c9 "playlist" h (by decide) (by decide) (by decide)
      (by decide) (by decide) (by decide) (by decide) (by decide) (by decide)
      (by decide) (by decide) (by decide) (by decide) (by decide) (by decide)
  refine ⟨prePlaylist_createConfig options env c9 h, hlink, ?_⟩
  rw [stageQuality_getKey _ _ (by decide)]
  exact stagePlaylist_falsy c9 (by rw [hlink]; exact hf)

/-- C2 counterexample: the claim asserts the playlist returned by
createConfig is always a non-empty sequence, including when the supplied
playlist is empty; but a supplied empty array is truthy in JavaScript, so
createConfig keeps it and the final playlist is the empty list. -/
theorem c2_playlist_counterexample :
    (createConfig [("playlist", .list [])] env0).map (fun c => getKey c "playlist") =
      .ok (some (.list [])) := rfl

/-- C2 witness: normalizing the empty options object yields a playlist of
length exactly 1 whose single item picks zero allow-listed fields. -/
theorem c2_playlist_witness :
    truthy ((getKey (mergedOf [] env0) "playlist").getD .undef) = false ∧
    (createConfig [] env0).map (fun c => getKey c "playlist") =
      .ok (some (.list [.obj []])) := by
  refine ⟨rfl, ?_⟩
  have h := c2_playlist_amended [] env0 _ rfl rfl
  rw [h.1]
  rfl

theorem stagePRC_bool_true (c : JsObj)
    (h : (getKey c "playbackRateControls").getD .undef = .bool true) :
    getKey (stagePRC c) "playbackRateControls" = some (.list defaultRates) ∧
    getKey (stagePRC c) "playbackRates" = some (.list defaultRates) := by
  unfold stagePRC
  simp only [h]
  constructor
  · simp [truthy, getKey_setKey]
  · simp [truthy, getKey_setKey]

theorem stagePRC_list_nonempty (c : JsObj) (l : List JsVal)
    (h : (getKey c "playbackRateControls").getD .undef = .list l)
    (hne : l.filter validRate ≠ []) :
    getKey (stagePRC c) "playbackRateControls" = some (.list (l.filter validRate)) ∧
    getKey (stagePRC c) "playbackRates" = some (.list (l.filter validRate)) := by
  unfold stagePRC
  simp only [h]
  have hie : (l.filter validRate).isEmpty = false := by
    cases hfe : l.filter validRate with
    | nil => exact absurd hfe hne
    | cons a t => rfl
  constructor
  · simp [truthy, hie, getKey_setKey]
  · simp [truthy, hie, getKey_setKey]

theorem stagePRC_list_empty (c : JsObj) (l : List JsVal)
    (h : (getKey c "playbackRateControls").getD .undef = .list l)
    (he : l.filter validRate = []) :
    getKey (stagePRC c) "playbackRateControls" = some (.bool false) ∧
    getKey (stagePRC c) "playbackRates" = getKey c "playbackRates" := by
  unfold stagePRC
  simp only [h]
  constructor
  · simp [truthy, he, getKey_setKey]
  · simp [truthy, he, getKey_setKey]

theorem stagePRC_other_truthy (c : JsObj) (v : JsVal)
    (h : (getKey c "playbackRateControls").getD .undef = v)
    (ht : truthy v = true) (hb : ∀ b, v ≠ .bool b) (hl : ∀ l, v ≠ .list l) :
    getKey (stagePRC c) "playbackRateControls" = some (.bool false) ∧
    getKey (stagePRC c) "playbackRates" = getKey c "playbackRates" := by
  unfold stagePRC
  simp only [h, ht]
  cases v with
  | bool b => exact absurd rfl (hb b)
  | list l => exact absurd rfl (hl l)
  | undef => exact absurd ht (by decide)
  | null => exact absurd ht (by decide)
  | num q => constructor <;> simp [getKey_setKey]
  | str s => constructor <;> simp [getKey_setKey]
  | obj o => constructor <;> simp [getKey_setKey]

theorem stagePRC_falsy (c : JsObj)
    (h : truthy ((getKey c "playbackRateControls").getD .undef) = false) :
    stagePRC c = c := by
  unfold stagePRC
  simp [h]

theorem stageRates_rates (c : JsObj) :
    getKey (stageRates c) "playbackRates" =
      some (if truthy ((getKey c "playbackRates").getD .undef)
            then (getKey c "playbackRates").getD .undef else .bool false) := by
  unfold stageRates
  simp only [getKey_setKey_ne c "playbackRate" _ "playbackRates" (by decide)]
  exact getKey_setKey_self _ _ _

/-- Decomposition of a successful createConfig run: the final object is the
quality stage applied to the playlist stage applied to the middle stages of a
post-flash state `c3` that agrees with the merged config on every key the
base, size and flash stages do not write. -/
theorem createConfig_decomp (options : JsObj) (env : Env) (cfg : JsObj)
    (h : createConfig options env = .ok cfg) :
    ∃ c3 : JsObj, cfg = stageQuality (stagePlaylist (middleStages c3)) ∧
      ∀ k, k ≠ "base" → k ≠ "width" → k ≠ "height" →
        k ≠ "flashplayer" → k ≠ "flashloader" →
        getKey c3 k = getKey (mergedOf options env) k := by
  unfold createConfig deriveConfig at h
  cases h1 : stageBase env (mergedOf options env) with
  | error e =>
    rw [h1] at h
    simp only [bind, Except.bind] at h
    exact absurd h (by simp)
  | ok c1 =>
    rw [h1] at h
    simp only [bind, Except.bind] at h
    cases h3 : stageFlash env (stageSize c1) with
    | error e =>
      rw [h3] at h
      exact absurd h (by simp)
    | ok c3 =>
      rw [h3] at h
      simp only [Except.ok.injEq] at h
      refine ⟨c3, h.symm, ?_⟩
      intro k hb hw hh hf1 hf2
      rw [stageFlash_getKey env _ _ _ h3 hf1 hf2, stageSize_getKey _ _ hw hh,
        stageBase_getKey env _ _ _ h1 hb]

/-- C4 (amended). createConfig resolves playbackRateControls as the claim
says — boolean truthy becomes the fixed list [0.5, 1, 1.25, 1.5, 2]; a list
keeps only numeric entries within [0.25, 4] and becomes false when the filter
leaves nothing; any other truthy form becomes false; a falsy form is left
unchanged (and the feature stays disabled); an enabled list is mirrored into
playbackRates — except that when the feature ends up disabled the final
config carries a playbackRates field explicitly set to false (the original
claim wrongly said the field is absent; the conclusion holds whenever the
caller did not supply a truthy playbackRates of its own). -/
theorem c4_playbackratecontrols_amended :
    ∀ (options : JsObj) (env : Env) (cfg : JsObj),
      createConfig options env = .ok cfg →
      ((getKey (mergedOf options env) "playbackRateControls").getD .undef = .bool true →
        getKey cfg "playbackRateControls" = some (.list defaultRates) ∧
        getKey cfg "playbackRates" = some (.list defaultRates)) ∧
      (∀ l, (getKey (mergedOf options env) "playbackRateControls").getD .undef = .list l →
        l.filter validRate ≠ [] →
        getKey cfg "playbackRateControls" = some (.list (l.filter validRate)) ∧
        getKey cfg "playbackRates" = some (.list (l.filter validRate))) ∧
      (∀ l, (getKey (mergedOf options env) "playbackRateControls").getD .undef = .list l →
        l.filter validRate = [] →
        getKey cfg "playbackRateControls" = some (.bool false) ∧
        (truthy ((getKey (mergedOf options env) "playbackRates").getD .undef) = false →
          getKey cfg "playbackRates" = some (.bool false))) ∧
      (∀ v, (getKey (mergedOf options env) "playbackRateControls").getD .undef = v →
        truthy v = true → (∀ b, v ≠ .bool b) → (∀ l, v ≠ .list l) →
        getKey cfg "playbackRateControls" = some (.bool false) ∧
        (truthy ((getKey (mergedOf options env) "playbackRates").getD .undef) = false →
          getKey cfg "playbackRates" = some (.bool false))) ∧
      (truthy ((getKey (mergedOf options env) "playbackRateControls").getD .undef) = false →
        getKey cfg "playbackRateControls" =
          getKey (mergedOf options env) "playbackRateControls" ∧
        (truthy ((getKey (mergedOf options env) "playbackRates").getD .undef) = false →
          getKey cfg "playbackRates" = some (.bool false))) := by
  intro options env cfg h
  obtain ⟨c3, hcfg, hkeys⟩ := createConfig_decomp options env cfg h
  subst hcfg
  set m := mergedOf options env with hm
  have hc3prc : getKey c3 "playbackRateControls" = getKey m "playbackRateControls" :=
    hkeys _ (by decide) (by decide) (by decide) (by decide) (by decide)
  have hc3pr : getKey c3 "playbackRates" = getKey m "playbackRates" :=
    hkeys _ (by decide) (by decide) (by decide) (by decide) (by decide)
  have hmid : middleStages c3 =
      stageAspectDelete (stageRates (stageDPR (stagePRC
        (stageSkinXml (stageSkin (stageAspect c3)))))) := rfl
  set c6 := stageSkinXml (stageSkin (stageAspect c3)) with hc6
  have hc6prc : getKey c6 "playbackRateControls" = getKey m "playbackRateControls" := by
    rw [hc6, stageSkinXml_getKey _ _ (by decide),
      stageSkin_getKey _ _ (by decide) (by decide) (by decide) (by decide) (by decide),
      stageAspect_getKey _ _ (by decide), hc3prc]
  have hc6pr : getKey c6 "playbackRates" = getKey m "playbackRates" := by
    rw [hc6, stageSkinXml_getKey _ _ (by decide),
      stageSkin_getKey _ _ (by decide) (by decide) (by decide) (by decide) (by decide),
      stageAspect_getKey _ _ (by decide), hc3pr]
  have hfinalc : ∀ x : JsObj,
      getKey (stageQuality (stagePlaylist (stageAspectDelete x))) "playbackRateControls" =
        getKey x "playbackRateControls" := by
    intro x
    rw [stageQuality_getKey _ _ (by decide), stagePlaylist_getKey _ _ (by decide) (by decide),
      stageAspectDelete_getKey _ _ (by decide)]
  have hfinalr : ∀ x : JsObj,
      getKey (stageQuality (stagePlaylist (stageAspectDelete x))) "playbackRates" =
        getKey x "playbackRates" := by
    intro x
    rw [stageQuality_getKey _ _ (by decide), stagePlaylist_getKey _ _ (by decide) (by decide),
      stageAspectDelete_getKey _ _ (by decide)]
  refine ⟨?_, ?_, ?_, ?_, ?_⟩
  · intro hv
    obtain ⟨hp1, hp2⟩ := stagePRC_bool_true c6 (by rw [hc6prc]; exact hv)
    constructor
    · rw [hmid, hfinalc, stageRates_getKey _ _ (by decide) (by decide),
        stageDPR_getKey _ _ (by decide), hp1]
    · rw [hmid, hfinalr, stageRates_rates, stageDPR_getKey _ _ (by decide), hp2]
      rfl
  · intro l hv hne
    obtain ⟨hp1, hp2⟩ := stagePRC_list_nonempty c6 l (by rw [hc6prc]; exact hv) hne
    constructor
    · rw [hmid, hfinalc, stageRates_getKey _ _ (by decide) (by decide),
        stageDPR_getKey _ _ (by decide), hp1]
    · rw [hmid, hfinalr, stageRates_rates, stageDPR_getKey _ _ (by decide), hp2]
      rfl
  · intro l hv he
    obtain ⟨hp1, hp2⟩ := stagePRC_list_empty c6 l (by rw [hc6prc]; exact hv) he
    constructor
    · rw [hmid, hfinalc, stageRates_getKey _ _ (by decide) (by decide),
        stageDPR_getKey _ _ (by decide), hp1]
    · intro hfalsy
      rw [hmid, hfinalr, stageRates_rates, stageDPR_getKey _ _ (by decide), hp2,
        hc6pr]
      simp [hfalsy]
  · intro v hv ht hb hl
    obtain ⟨hp1, hp2⟩ := stagePRC_other_truthy c6 v (by rw [hc6prc]; exact hv) ht hb hl
    constructor
    · rw [hmid, hfinalc, stageRates_getKey _ _ (by decide) (by decide),
        stageDPR_getKey _ _ (by decide), hp1]
    · intro hfalsy
      rw [hmid, hfinalr, stageRates_rates, stageDPR_getKey _ _ (by decide), hp2,
        hc6pr]
      simp [hfalsy]
  · intro hfalsy
    have hpc : stagePRC c6 = c6 := stagePRC_falsy c6 (by rw [hc6prc]; exact hfalsy)
    constructor
    · rw [hmid, hfinalc, stageRates_getKey _ _ (by decide) (by decide),
        stageDPR_getKey _ _ (by decide), hpc, hc6prc]
    · intro hprf
      rw [hmid, hfinalr, stageRates_rates, stageDPR_getKey _ _ (by decide), hpc,
        hc6pr]
      simp [hprf]

/-- C4 counterexample: normalizing an options object whose
playbackRateControls list is entirely out of range yields
playbackRateControls === false as the claim says, but the final config does
carry a playbackRates field — explicitly set to false — where the claim
asserts the field is absent. -/
theorem c4_playbackratecontrols_counterexample :
    (createConfig [("playbackRateControls",
        .list [.num (JNum.mk' 1 10), .num (JNum.ofNat 10)])] env0).map
      (fun c => (getKey c "playbackRateControls", getKey c "playbackRates")) =
      .ok (some (.bool false), some (.bool false)) := rfl

/-- C4 witness: the amended theorem applied to the all-out-of-range list
[0.1, 10]: the filter drops every entry and the feature is disabled with
playbackRates set to false. -/
theorem c4_playbackratecontrols_witness :
    ([JsVal.num (JNum.mk' 1 10), JsVal.num (JNum.ofNat 10)].filter validRate = []) ∧
    (createConfig [("playbackRateControls",
        .list [.num (JNum.mk' 1 10), .num (JNum.ofNat 10)])] env0).map
      (fun c => getKey c "playbackRateControls") = .ok (some (.bool false)) := by
  refine ⟨rfl, ?_⟩
  have h := c4_playbackratecontrols_amended
    [("playbackRateControls", .list [.num (JNum.mk' 1 10), .num (JNum.ofNat 10)])] env0 _ rfl
  have h3 := (h.2.2.1 [.num (JNum.mk' 1 10), .num (JNum.ofNat 10)] rfl rfl).1
  rw [show (createConfig [("playbackRateControls",
      .list [.num (JNum.mk' 1 10), .num (JNum.ofNat 10)])] env0) = _ from rfl]
  rfl

theorem keysNodup_defaultsObj : KeysNodup defaultsObj := by
  unfold KeysNodup
  decide

theorem getKey_orElse_map_serialize (a b : Option JsVal) :
    ((a.orElse fun _ => b).map serialize) =
      ((a.map serialize).orElse fun _ => b.map serialize) := by
  cases a <;> rfl

/-- The merged-option lookup: the three caller-visible layers resolved
right-to-left, deserialized, with the built-in defaults below them. -/
theorem mergedOf_getKey (pdef persisted options : JsObj) (sp lf : String) (hp : Bool)
    (h1 : KeysNodup pdef) (h2 : KeysNodup persisted) (h3 : KeysNodup options)
    (k : String) (hk : k ≠ "localization") :
    getKey (mergedOf options
        { jwDefaults := some pdef, persisted := some persisted,
          scriptPath := sp, loadFrom := lf, httpProtocol := hp }) k =
      (((getKey options k).orElse fun _ =>
          (getKey persisted k).orElse fun _ => getKey pdef k).map serialize).orElse
        (fun _ => getKey defaultsObj k) := by
  unfold mergedOf
  simp only [Option.getD_some]
  have hnd0 : KeysNodup (extendObj (extendObj (extendObj [] pdef) persisted) options) :=
    keysNodup_extendObj _ _ (keysNodup_extendObj _ _ (keysNodup_extendObj _ _
      (by unfold KeysNodup; decide)))
  have hnd1 : KeysNodup (deserializeObj (extendObj (extendObj (extendObj [] pdef) persisted) options)) := by
    unfold KeysNodup
    rw [keys_deserializeObj]
    exact hnd0
  have hnd2 : KeysNodup (setKey (deserializeObj (extendObj (extendObj (extendObj [] pdef) persisted) options)) "localization" (.obj (extendObj defaultsLocalization (extendSourceEntries (getKey (deserializeObj (extendObj (extendObj (extendObj [] pdef) persisted) options)) "localization"))))) :=
    keysNodup_setKey _ _ _ hnd1
  rw [getKey_extendObj _ _ hnd2, getKey_setKey_ne _ _ _ _ hk, getKey_deserializeObj,
    getKey_extendObj _ _ h3, getKey_extendObj _ _ h2, getKey_extendObj _ _ h1,
    getKey_extendObj _ _ keysNodup_defaultsObj]
  cases ho : getKey options k <;> cases hpe : getKey persisted k <;>
    cases hpd : getKey pdef k <;> cases hdo : getKey defaultsObj k <;>
    simp [Option.orElse, getKey_nil]

/-- C5 (amended). createConfig merges built-in defaults, process-wide
injected defaults, persisted values and explicit call-time options in that
precedence order, later layers fully overwriting same-named keys (each merged
value then deserialized from its persisted string form) — except
localization, which the code merges per string-table entry in only TWO
layers: the built-in strings under the single localization table contributed
by the highest layer that supplies one. A translation omitted from that
winning table falls back to the built-in string, not to a lower non-built-in
layer (the original claim's three-layer fallback fails). -/
theorem c5_merge_amended :
    ∀ (pdef persisted options : JsObj) (sp lf : String) (hp : Bool),
      KeysNodup pdef → KeysNodup persisted → KeysNodup options →
      (∀ k, k ≠ "localization" →
        getKey (mergedOf options
            { jwDefaults := some pdef, persisted := some persisted,
              scriptPath := sp, loadFrom := lf, httpProtocol := hp }) k =
          (((getKey options k).orElse fun _ =>
              (getKey persisted k).orElse fun _ => getKey pdef k).map serialize).orElse
            (fun _ => getKey defaultsObj k)) ∧
      (getKey (mergedOf options
          { jwDefaults := some pdef, persisted := some persisted,
            scriptPath := sp, loadFrom := lf, httpProtocol := hp }) "localization" =
        some (.obj (extendObj defaultsLocalization (extendSourceEntries
          (((getKey options "localization").orElse fun _ =>
              (getKey persisted "localization").orElse fun _ =>
                getKey pdef "localization").map serialize))))) ∧
      (∀ (winner : JsObj) (k' : String), KeysNodup winner →
        getKey (extendObj defaultsLocalization winner) k' =
          (getKey winner k').orElse (fun _ => getKey defaultsLocalization k')) := by
  intro pdef persisted options sp lf hp h1 h2 h3
  refine ⟨mergedOf_getKey pdef persisted options sp lf hp h1 h2 h3, ?_, ?_⟩
  · unfold mergedOf
    simp only [Option.getD_some]
    have hnd1 : KeysNodup (deserializeObj (extendObj (extendObj (extendObj [] pdef) persisted) options)) := by
      unfold KeysNodup
      rw [keys_deserializeObj]
      exact keysNodup_extendObj _ _ (keysNodup_extendObj _ _ (keysNodup_extendObj _ _
        (by unfold KeysNodup; decide)))
    have hnd2 := keysNodup_setKey (deserializeObj (extendObj (extendObj (extendObj [] pdef) persisted) options)) "localization" (.obj (extendObj defaultsLocalization (extendSourceEntries (getKey (deserializeObj (extendObj (extendObj (extendObj [] pdef) persisted) options)) "localization")))) hnd1
    rw [getKey_extendObj _ _ hnd2, getKey_setKey_self]
    have hlook : getKey (deserializeObj (extendObj (extendObj (extendObj [] pdef) persisted) options)) "localization" =
        ((getKey options "localization").orElse fun _ =>
          (getKey persisted "localization").orElse fun _ =>
            getKey pdef "localization").map serialize := by
      rw [getKey_deserializeObj, getKey_extendObj _ _ h3, getKey_extendObj _ _ h2,
        getKey_extendObj _ _ h1]
      cases ho : getKey options "localization" <;>
        cases hpe : getKey persisted "localization" <;>
        cases hpd : getKey pdef "localization" <;> simp [Option.orElse, getKey_nil]
    rw [hlook]
    rfl
  · intro winner k' hw
    exact getKey_extendObj _ _ hw k'

/-- C5 counterexample: with process-wide defaults contributing the
translation play = "Jugar" and explicit options overriding only pause, the
spec's three-layer localization merge keeps "Jugar", but the code's merge
lets the explicit table wholesale-replace the process-default table before
built-in strings are filled in, so the final play string is the built-in
"Play". -/
theorem c5_localization_counterexample :
    (getKey (mergedOf [("localization", .obj [("pause", .str "Pausa")])]
        { jwDefaults := some [("localization", .obj [("play", .str "Jugar")])],
          persisted := none, scriptPath := "/js/", loadFrom := "/page/",
          httpProtocol := false }) "localization").map (fun l => getProp l "play") =
      some (some (.str "Play")) ∧
    getKey (specLocalizationMerge [("play", .str "Jugar")] [("pause", .str "Pausa")]) "play" =
      some (.str "Jugar") ∧
    JsVal.str "Play" ≠ JsVal.str "Jugar" := by
  refine ⟨rfl, rfl, ?_⟩
  intro h
  injection h with h'
  exact absurd h' (by decide)

/-- C5 witness: the merge lemma applied to three one-key layers — the
explicit option wins over the persisted and process-default values for the
same key. -/
theorem c5_merge_witness :
    KeysNodup [("volume", JsVal.num (JNum.ofNat 10))] ∧
    getKey (mergedOf [("volume", .num (JNum.ofNat 10))]
        { jwDefaults := some [("volume", .num (JNum.ofNat 20))],
          persisted := some [("volume", .str "55")],
          scriptPath := "/js/", loadFrom := "/page/", httpProtocol := false }) "volume" =
      some (.num (JNum.ofNat 10)) := by
  constructor
  · unfold KeysNodup
    decide
  · have h := (c5_merge_amended [("volume", .num (JNum.ofNat 20))] [("volume", .str "55")]
      [("volume", .num (JNum.ofNat 10))] "/js/" "/page/" false
      (by unfold KeysNodup; decide) (by unfold KeysNodup; decide)
      (by unfold KeysNodup; decide)).1 "volume" (by decide)
    rw [h]
    rfl

theorem resetPlayer_bridge_empty (f : FacadeState)
    (h : ∀ b ∈ f.bridge, b.gen = f.curGen) :
    (resetPlayer f).bridge = [] := by
  unfold resetPlayer
  simp only []
  rw [List.filter_eq_nil]
  intro b hb
  simp [h b hb]

theorem setupApi_bridge (f : FacadeState)
    (h : ∀ b ∈ f.bridge, b.gen = f.curGen) :
    (setupApi f).bridge = setupControllerSubs f.nextGen := by
  unfold setupApi
  simp only []
  rw [resetPlayer_bridge_empty { f with qoeTicks := f.qoeTicks ++ ["setup"] }
    (fun b hb => h b hb)]
  rfl

theorem applyFOp_pres (f : FacadeState) (op : FOp) (h : BridgeWF f) :
    BridgeWF (applyFOp f op) ∧ f.curGen ≤ (applyFOp f op).curGen := by
  obtain ⟨hb, hlt⟩ := h
  cases op with
  | setup =>
    refine ⟨⟨?_, ?_⟩, ?_⟩
    · intro b hbm
      have hbr : (setupApi f).bridge = setupControllerSubs f.nextGen := setupApi_bridge f hb
      rw [show applyFOp f FOp.setup = setupApi f from rfl, hbr] at hbm
      have hcg : (applyFOp f FOp.setup).curGen = f.nextGen := by
        unfold applyFOp setupApi resetPlayer
        rfl
      rw [hcg]
      simp only [setupControllerSubs, List.mem_cons, List.not_mem_nil, or_false] at hbm
      rcases hbm with hbm | hbm <;> rw [hbm]
    · show (setupApi f).curGen < (setupApi f).nextGen
      unfold setupApi resetPlayer
      simp
    · show f.curGen ≤ (setupApi f).curGen
      unfold setupApi resetPlayer
      simp only []
      exact Nat.le_of_lt hlt
  | removeOp =>
    refine ⟨⟨?_, hlt⟩, Nat.le_refl _⟩
    intro b hbm
    rw [show applyFOp f FOp.removeOp = resetPlayer f from rfl,
      resetPlayer_bridge_empty f hb] at hbm
    exact absurd hbm (by simp)
  | onExt n cb => exact ⟨⟨hb, hlt⟩, Nat.le_refl _⟩
  | offAll => exact ⟨⟨hb, hlt⟩, Nat.le_refl _⟩

theorem applyFOps_pres (f : FacadeState) (ops : List FOp) (h : BridgeWF f) :
    BridgeWF (applyFOps f ops) ∧ f.curGen ≤ (applyFOps f ops).curGen := by
  induction ops generalizing f with
  | nil => exact ⟨h, Nat.le_refl _⟩
  | cons op rest ih =>
    obtain ⟨h1, hle⟩ := applyFOp_pres f op h
    obtain ⟨h2, hle2⟩ := ih (applyFOp f op) h1
    exact ⟨h2, Nat.le_trans hle hle2⟩

/-- C1 (confirmed). When `setup()` is called on a facade whose wiring is
well-formed (every bridge listener belongs to the currently wired engine and
the construction counter is ahead, which holds from construction on), the
teardown in `resetPlayer` leaves the superseded controller with no bridge
listeners before the new controller's subscriptions are attached, the rebuilt
bridge consists of exactly the new controller's ready and wildcard
subscriptions, and after any further sequence of facade operations no event
emitted by the superseded engine can reach facade wiring. -/
theorem c1_teardown_before_rebuild :
    ∀ f : FacadeState, BridgeWF f →
      (resetPlayer f).bridge = [] ∧
      (setupApi f).bridge = setupControllerSubs f.nextGen ∧
      ∀ (ops : List FOp) (e : String),
        oldEngineReaches (applyFOps (setupApi f) ops) f.curGen e = false := by
  intro f h
  obtain ⟨hb, hlt⟩ := h
  refine ⟨resetPlayer_bridge_empty f hb, setupApi_bridge f hb, ?_⟩
  intro ops e
  have hsw : BridgeWF (setupApi f) := (applyFOp_pres f FOp.setup ⟨hb, hlt⟩).1
  have hsc : f.curGen < (setupApi f).curGen := by
    show f.curGen < (setupApi f).curGen
    unfold setupApi resetPlayer
    simp only []
    exact hlt
  obtain ⟨⟨hball, _⟩, hmono⟩ := applyFOps_pres (setupApi f) ops hsw
  unfold oldEngineReaches
  rw [List.any_eq_false]
  intro b hbm
  have hgen := hball b hbm
  have : f.curGen < (applyFOps (setupApi f) ops).curGen := Nat.lt_of_lt_of_le hsc hmono
  simp only [Bool.and_eq_true, decide_eq_true_eq, Bool.or_eq_true, not_and]
  intro hg
  rw [hg] at hgen
  omega

/-- C1 witness: the theorem applied to a freshly constructed facade, with a
listener registration and a further setup() following the second setup — the
original controller's events reach nothing. -/
theorem c1_teardown_witness :
    BridgeWF (apiConstruct 0 "player") ∧
    (resetPlayer (apiConstruct 0 "player")).bridge = [] ∧
    oldEngineReaches
      (applyFOps (setupApi (apiConstruct 0 "player")) [FOp.onExt "play" 5, FOp.setup])
      (apiConstruct 0 "player").curGen "ready" = false := by
  have hwf : BridgeWF (apiConstruct 0 "player") := ⟨by decide, by decide⟩
  have h := c1_teardown_before_rebuild (apiConstruct 0 "player") hwf
  exact ⟨hwf, h.1, h.2.2 [FOp.onExt "play" 5, FOp.setup] "ready"⟩

/-- C6 counterexample: an external listener attached via `on` does NOT
survive `setup()` — `resetPlayer` inside `setup()` calls `api.off()`, which
removes every external listener before the new engine is wired. -/
theorem c6_subscriptions_counterexample :
    (setupApi { apiConstruct 0 "player" with
      extListeners := [("play", 7)] }).extListeners = [] ∧
    ({ apiConstruct 0 "player" with
      extListeners := [("play", 7)] } : FacadeState).extListeners = [("play", 7)] :=
  ⟨rfl, rfl⟩

/-- C6 (amended). External event listeners attached via on/once are cleared
by BOTH `setup()` (whose teardown calls `api.off()` before rebuilding the
engine wiring) and `remove()`; they do not survive a subsequent `setup()`
call. -/
theorem c6_subscriptions_amended :
    ∀ f : FacadeState,
      (setupApi f).extListeners = [] ∧
      (resetPlayer f).extListeners = [] ∧
      (applyFOp f FOp.removeOp).extListeners = [] := by
  intro f
  exact ⟨rfl, rfl, rfl⟩

theorem eraseP_uid_not_mem (l : List Inst) (uid : ℕ)
    (hn : (l.map Inst.uniqueId).Nodup) :
    ∀ i ∈ l.eraseP (fun i => i.uniqueId == uid), i.uniqueId ≠ uid := by
  induction l with
  | nil => simp
  | cons a t ih =>
    simp only [List.map_cons, List.nodup_cons] at hn
    intro i hi
    rw [List.eraseP_cons] at hi
    by_cases ha : a.uniqueId = uid
    · have hbeq : (a.uniqueId == uid) = true := by simp [ha]
      rw [hbeq, cond_true] at hi
      intro he
      exact hn.1 (by rw [ha, ← he]; exact List.mem_map_of_mem _ hi)
    · have hbeq : (a.uniqueId == uid) = false := by simp [ha]
      rw [hbeq, cond_false] at hi
      rcases List.mem_cons.mp hi with hi | hi
      · rw [hi]
        exact ha
      · exact ih hn.2 i hi

theorem removePlayer_not_mem (l : List Inst) (uid : ℕ)
    (hn : (l.map Inst.uniqueId).Nodup) :
    ∀ i ∈ removePlayer l uid, i.uniqueId ≠ uid := by
  intro i hi
  unfold removePlayer at hi
  have hrev : (l.reverse.map Inst.uniqueId).Nodup := by
    rw [List.map_reverse]
    exact List.nodup_reverse.mpr hn
  exact eraseP_uid_not_mem l.reverse uid hrev i (List.mem_reverse.mp hi)

theorem removePlayer_no_match (l : List Inst) (uid : ℕ)
    (h : ∀ i ∈ l, i.uniqueId ≠ uid) :
    removePlayer l uid = l := by
  unfold removePlayer
  rw [List.eraseP_of_forall_not, List.reverse_reverse]
  intro a ha
  simp [h a (List.mem_reverse.mp ha)]

/-- C7 (confirmed). `remove()` unregisters the instance from the registry
(after it, no registered instance carries the facade's uniqueId), emits the
terminal "remove" notification to exactly the listeners current at that
moment (the pre-teardown listener set), then tears the wiring down; a second
`remove()` on the same facade also returns normally, is a registry no-op, and
notifies nobody. Both calls return `.ok`: every step of the translated remove
path (array splice, safe trigger, backbone off, guarded playerDestroy) is
non-throwing. -/
theorem c7_remove_idempotent :
    ∀ (reg : List Inst) (f : FacadeState) (r1 : List Inst) (f1 : FacadeState) (d1 : List ℕ),
      (reg.map Inst.uniqueId).Nodup →
      removeApi reg f = .ok (r1, f1, d1) →
      (∀ i ∈ r1, i.uniqueId ≠ f.uniqueId) ∧
      d1 = listenersFor f "remove" ∧
      f1.extListeners = [] ∧
      removeApi r1 f1 = .ok (r1, resetPlayer f1, []) := by
  intro reg f r1 f1 d1 hn h
  unfold removeApi at h
  simp only [Except.ok.injEq, Prod.mk.injEq] at h
  obtain ⟨hr1, hf1, hd1⟩ := h
  subst hr1
  subst hf1
  subst hd1
  refine ⟨removePlayer_not_mem reg f.uniqueId hn, rfl, rfl, ?_⟩
  unfold removeApi
  have huid : (resetPlayer f).uniqueId = f.uniqueId := rfl
  rw [huid, removePlayer_no_match _ _ (removePlayer_not_mem reg f.uniqueId hn)]
  have hlf : listenersFor (resetPlayer f) "remove" = [] := rfl
  rw [hlf]

/-- C7 witness: the theorem applied to a two-instance registry and a facade
with listeners for "remove", "all" and "play": the first remove unregisters
uniqueId 1 and notifies callbacks 3 and 4; the second is a no-op that
notifies nobody and does not throw. -/
theorem c7_remove_witness :
    (([⟨0, "a"⟩, ⟨1, "b"⟩] : List Inst).map Inst.uniqueId).Nodup ∧
    removeApi [⟨0, "a"⟩, ⟨1, "b"⟩]
      { apiConstruct 1 "b" with extListeners := [("remove", 3), ("all", 4), ("play", 5)] } =
      .ok ([⟨0, "a"⟩],
        resetPlayer { apiConstruct 1 "b" with
          extListeners := [("remove", 3), ("all", 4), ("play", 5)] }, [3, 4]) ∧
    removeApi [⟨0, "a"⟩]
      (resetPlayer { apiConstruct 1 "b" with
        extListeners := [("remove", 3), ("all", 4), ("play", 5)] }) =
      .ok ([⟨0, "a"⟩],
        resetPlayer (resetPlayer { apiConstruct 1 "b" with
          extListeners := [("remove", 3), ("all", 4), ("play", 5)] }), []) := by
  have h := c7_remove_idempotent [⟨0, "a"⟩, ⟨1, "b"⟩]
    { apiConstruct 1 "b" with extListeners := [("remove", 3), ("all", 4), ("play", 5)] }
    _ _ _ (by decide) rfl
  exact ⟨by decide, rfl, h.2.2.2⟩

theorem playerById_eq (l : List Inst) (inst : Inst)
    (hmem : inst ∈ l) (hn : (l.map Inst.id).Nodup) :
    _playerById l inst.id = some inst := by
  induction l with
  | nil => exact absurd hmem (by simp)
  | cons a t ih =>
    simp only [List.map_cons, List.nodup_cons] at hn
    rcases List.mem_cons.mp hmem with he | hm
    · subst he
      unfold _playerById
      simp [List.find?_cons]
    · have hne : a.id ≠ inst.id := by
        intro he
        exact hn.1 (by rw [he]; exact List.mem_map_of_mem _ hm)
      unfold _playerById at ih ⊢
      rw [List.find?_cons_of_neg]
      · exact ih hm hn.2
      · simp [hne]

/-- C8 counterexample: an instance registered under the empty element id (as
a node query on an id-less element creates, since an element without an id
attribute reports id "") is NOT returned when `selectPlayer` is called with
its element-id string: the empty string is falsy, so the `if (!query)` guard
takes the no-query branch and returns the FIRST registered instance, here a
different one. -/
theorem c8_selectPlayer_counterexample :
    ((⟨1, ""⟩ : Inst) ∈ ([⟨0, "alpha"⟩, ⟨1, ""⟩] : List Inst)) ∧
    (([⟨0, "alpha"⟩, ⟨1, ""⟩] : List Inst).map Inst.id).Nodup ∧
    selectPlayer ⟨[⟨0, "alpha"⟩, ⟨1, ""⟩], 2, 2⟩ [] (.str (⟨1, ""⟩ : Inst).id) =
      (.player ⟨0, "alpha"⟩, ⟨[⟨0, "alpha"⟩, ⟨1, ""⟩], 2, 2⟩) ∧
    (⟨0, "alpha"⟩ : Inst) ≠ ⟨1, ""⟩ := by
  exact ⟨by decide, by decide, rfl, by decide⟩

/-- C8 (amended). For every registry whose registered element ids are
distinct (as `selectPlayer`-driven creation guarantees, since it creates only
when the id lookup fails), querying `selectPlayer` with a registered
instance's NON-EMPTY element id string returns that exact instance unchanged
and creates nothing, and querying with a DOM element carrying the instance's
element id — empty or not, since an element object is truthy — likewise
returns that exact instance: an existing player takes priority over creating
a new one against a DOM element of the same id. (An empty-string query is
falsy and takes the no-query branch, resolving to the first registered
instance regardless.) -/
theorem c8_selectPlayer_priority_amended :
    ∀ (g : GlobalState) (dom : List String) (inst : Inst),
      inst ∈ g.instances → (g.instances.map Inst.id).Nodup →
      (inst.id ≠ "" → selectPlayer g dom (.str inst.id) = (.player inst, g)) ∧
      selectPlayer g dom (.node inst.id) = (.player inst, g) := by
  intro g dom inst hmem hn
  have hp := playerById_eq g.instances inst hmem hn
  constructor
  · intro hne
    unfold selectPlayer
    rw [if_neg]
    · simp only []
      rw [hp]
    · simp [queryFalsy, hne]
  · unfold selectPlayer
    rw [if_neg]
    · simp only []
      rw [hp]
    · simp [queryFalsy]

/-- C8 witness: the amended theorem applied to a registry of two instances
and a DOM that could resolve the id — the registered instance wins over
creation for both the string query and the node query, and the state is
unchanged. -/
theorem c8_selectPlayer_priority_witness :
    ((⟨1, "beta"⟩ : Inst) ∈ ([⟨0, "alpha"⟩, ⟨1, "beta"⟩] : List Inst)) ∧
    (([⟨0, "alpha"⟩, ⟨1, "beta"⟩] : List Inst).map Inst.id).Nodup ∧
    ("beta" : String) ≠ "" ∧
    selectPlayer ⟨[⟨0, "alpha"⟩, ⟨1, "beta"⟩], 2, 2⟩ ["beta"] (.str "beta") =
      (.player ⟨1, "beta"⟩, ⟨[⟨0, "alpha"⟩, ⟨1, "beta"⟩], 2, 2⟩) ∧
    selectPlayer ⟨[⟨0, "alpha"⟩, ⟨1, "beta"⟩], 2, 2⟩ ["beta"] (.node "beta") =
      (.player ⟨1, "beta"⟩, ⟨[⟨0, "alpha"⟩, ⟨1, "beta"⟩], 2, 2⟩) := by
  have h := c8_selectPlayer_priority_amended ⟨[⟨0, "alpha"⟩, ⟨1, "beta"⟩], 2, 2⟩ ["beta"]
    ⟨1, "beta"⟩ (by decide) (by decide)
  exact ⟨by decide, by decide, by decide, h.1 (by decide), h.2⟩

theorem removePlayer_sublist (l : List Inst) (uid : ℕ) :
    (removePlayer l uid).Sublist l := by
  unfold removePlayer
  have h := (List.eraseP_sublist (l := l.reverse)
    (p := fun i => i.uniqueId == uid)).reverse
  rwa [List.reverse_reverse] at h

theorem applyGOp_counter_mono (g : GlobalState) (op : GOp) :
    g.instancesCreated ≤ (applyGOp g op).instancesCreated := by
  cases op with
  | removeOp uid => exact Nat.le_refl _
  | select dom q =>
    show g.instancesCreated ≤ (selectPlayer g dom q).2.instancesCreated
    unfold selectPlayer
    split
    · cases g.instances <;> exact Nat.le_refl _
    · cases q with
      | noQuery => exact Nat.le_refl _
      | str s =>
        simp only []
        cases _playerById g.instances s with
        | none =>
          simp only []
          split
          · exact Nat.le_succ _
          · exact Nat.le_refl _
        | some p => exact Nat.le_refl _
      | num n =>
        simp only []
        cases g.instances.get? n <;> exact Nat.le_refl _
      | node d =>
        simp only []
        cases _playerById g.instances d with
        | none => exact Nat.le_succ _
        | some p => exact Nat.le_refl _
      | other => exact Nat.le_refl _

theorem registryInv_addNewPlayer (g : GlobalState) (domId : String)
    (h : RegistryInv g) : RegistryInv (addNewPlayer g domId).2 := by
  obtain ⟨hp, hb⟩ := h
  constructor
  · unfold addNewPlayer
    simp only [List.map_append]
    rw [List.pairwise_append]
    refine ⟨hp, List.pairwise_singleton _ _, ?_⟩
    intro a ha b hb2
    simp only [List.map_cons, List.map_nil, List.mem_singleton] at hb2
    subst hb2
    obtain ⟨i, hi, hia⟩ := List.mem_map.mp ha
    rw [← hia]
    exact hb i hi
  · intro i hi
    unfold addNewPlayer at hi ⊢
    simp only []
    rcases List.mem_append.mp hi with hi | hi
    · exact Nat.lt_succ_of_lt (hb i hi)
    · simp only [List.mem_singleton] at hi
      rw [hi]
      exact Nat.lt_succ_self _

theorem applyGOp_pres_inv (g : GlobalState) (op : GOp) (h : RegistryInv g) :
    RegistryInv (applyGOp g op) := by
  cases op with
  | removeOp uid =>
    obtain ⟨hp, hb⟩ := h
    constructor
    · exact hp.sublist ((removePlayer_sublist g.instances uid).map _)
    · intro i hi
      exact hb i ((removePlayer_sublist g.instances uid).mem hi)
  | select dom q =>
    show RegistryInv (selectPlayer g dom q).2
    unfold selectPlayer
    split
    · cases g.instances with
      | nil => exact h
      | cons a t => exact h
    · cases q with
      | noQuery => exact h
      | str s =>
        simp only []
        cases _playerById g.instances s with
        | none =>
          simp only []
          split
          · exact registryInv_addNewPlayer g s h
          · exact h
        | some p => exact h
      | num n =>
        simp only []
        cases g.instances.get? n <;> exact h
      | node d =>
        simp only []
        cases _playerById g.instances d with
        | none => exact registryInv_addNewPlayer g d h
        | some p => exact h
      | other => exact h

theorem foldlGOps_pres (g : GlobalState) (ops : List GOp) (h : RegistryInv g) :
    RegistryInv (ops.foldl applyGOp g) ∧
      g.instancesCreated ≤ (ops.foldl applyGOp g).instancesCreated := by
  induction ops generalizing g with
  | nil => exact ⟨h, Nat.le_refl _⟩
  | cons op rest ih =>
    obtain ⟨h1, hle⟩ := ih (applyGOp g op) (applyGOp_pres_inv g op h)
    exact ⟨h1, Nat.le_trans (applyGOp_counter_mono g op) hle⟩

/-- C9 (confirmed). Over every sequence of registry operations from process
start, the registered unique ids are strictly increasing in registration
order — so no two live registered instances share a uniqueId and the ordered
collection is in creation order — every registered id is below the
construction counter, and the counter only grows: an id live at any earlier
point stays below every later counter value, so a uniqueId is never reused
within a process lifetime. (`uniqueId` itself is captured at construction
behind a getter-only property and is immutable; `_addPlayer`'s subsequent
`api.uniqueId = _uniqueIndex` assignment targets that setter-less property
and leaves the id unchanged.) -/
theorem c9_registry_unique_ids :
    ∀ ops : List GOp,
      ((runGOps ops).instances.map Inst.uniqueId).Pairwise (· < ·) ∧
      (∀ i ∈ (runGOps ops).instances, i.uniqueId < (runGOps ops).instancesCreated) ∧
      (∀ pre suf, ops = pre ++ suf →
        (runGOps pre).instancesCreated ≤ (runGOps ops).instancesCreated ∧
        ∀ i ∈ (runGOps pre).instances, i.uniqueId < (runGOps ops).instancesCreated) := by
  intro ops
  have h0 : RegistryInv initialGlobal := ⟨List.Pairwise.nil, by intro i hi; cases hi⟩
  have hmain := foldlGOps_pres initialGlobal ops h0
  refine ⟨hmain.1.1, hmain.1.2, ?_⟩
  intro pre suf hsplit
  subst hsplit
  have hpre := foldlGOps_pres initialGlobal pre h0
  have hsuf := foldlGOps_pres (runGOps pre) suf hpre.1
  have hruns : runGOps (pre ++ suf) = suf.foldl applyGOp (runGOps pre) := by
    unfold runGOps
    rw [List.foldl_append]
  constructor
  · rw [hruns]
    exact hsuf.2
  · intro i hi
    rw [hruns]
    exact Nat.lt_of_lt_of_le (hpre.1.2 i hi) hsuf.2

/-- C9 witness: create a player for element "a", remove it, create another
for the same element — the second creation takes the fresh id 1; the removed
id 0 stays below the final counter and is never reassigned. -/
theorem c9_registry_witness :
    runGOps [GOp.select ["a"] (.str "a"), GOp.removeOp 0, GOp.select ["a"] (.str "a")] =
      ⟨[⟨1, "a"⟩], 2, 2⟩ ∧
    ((⟨0, "a"⟩ : Inst) ∈ (runGOps [GOp.select ["a"] (.str "a")]).instances) ∧
    (0 : ℕ) <
      (runGOps [GOp.select ["a"] (.str "a"), GOp.removeOp 0,
        GOp.select ["a"] (.str "a")]).instancesCreated := by
  refine ⟨rfl, by decide, ?_⟩
  have h := (c9_registry_unique_ids
    [GOp.select ["a"] (.str "a"), GOp.removeOp 0, GOp.select ["a"] (.str "a")]).2.2
    [GOp.select ["a"] (.str "a")] [GOp.removeOp 0, GOp.select ["a"] (.str "a")] rfl
  exact h.2 ⟨0, "a"⟩ (by decide)

/-- C10 (code bug). `addPlugin` records the instance under its name and
subscribes `addToPlayer` to "ready" as claimed, but the resize subscription
line is written `this.on('resize'. pluginInstance.resizeHandler)` — a period
instead of a comma — so it evaluates `('resize').pluginInstance`, which is
`undefined`, and reading `.resizeHandler` from it throws a TypeError: for
every plugin exposing a resize capability the call throws instead of
subscribing. A plugin without the resize capability is recorded and wired to
"ready" normally. -/
theorem c10_addPlugin_resize_throws :
    addPlugin (apiConstruct 0 "player") "vastplugin"
      { hasAddToPlayer := true, addToPlayerId := 11, hasResize := true, resizeHandlerId := 12 } =
      .error .typeError ∧
    addPlugin (apiConstruct 0 "player") "gaplugin"
      { hasAddToPlayer := true, addToPlayerId := 21, hasResize := false, resizeHandlerId := 0 } =
      .ok { apiConstruct 0 "player" with
            plugins := [("gaplugin",
              { hasAddToPlayer := true, addToPlayerId := 21,
                hasResize := false, resizeHandlerId := 0 })]
            extListeners := [("ready", 21)] } :=
  ⟨rfl, rfl⟩

end JW
